import Mathlib

/-!
# engines/scripts/puppeteer_single.js

A shallow embedding of `main` (the only function of the script) and of the two
callbacks it hands to `page.evaluate` in its scroll branch.

* Values decoded from the action payload are `JSVal`.
* The browser is a record `Browser W` of arbitrary functions over an arbitrary
  world type `W`: every call made through puppeteer may raise, and changes the
  world in an arbitrary way.  The DOM operations used by the in-page callbacks
  are fields of the same record.
* A computation is a function from the world to an outcome: the value or the
  error raised, the world afterwards, and the list of events it emitted, in
  order (session calls, pauses, lines written to the standard streams).
* Pixel quantities (`scrollTop`, `scrollHeight`, `clientHeight`) are integers;
  `Math.floor(clientHeight * 0.95)` is the integer `⌊95 * clientHeight / 100⌋`.
-/

namespace PuppeteerSingle

/-! ## Values -/

/-- JavaScript numbers: the finite ones, and the three non-finite ones. -/
inductive JSNum where
  | fin (q : ℚ)
  | nan
  | posInf
  | negInf

/-- JavaScript values as far as the action payload can hold them (the result of
`JSON.parse`), together with `undefined`, the value of a missing property. -/
inductive JSVal where
  | undefined
  | null
  | bool (b : Bool)
  | num (n : JSNum)
  | str (s : String)
  | arr (items : List JSVal)
  | obj (fields : List (String × JSVal))

/-- Truthiness of a number: `0` and `NaN` are falsy. -/
def JSNum.truthy : JSNum → Bool
  | .fin q => decide (q ≠ 0)
  | .nan => false
  | .posInf => true
  | .negInf => true

/-- Truthiness, as used by `a && ...`, `a.selector` in a condition, `a.key || ...`. -/
def JSVal.truthy : JSVal → Bool
  | .undefined => false
  | .null => false
  | .bool b => b
  | .num n => n.truthy
  | .str s => decide (s ≠ "")
  | .arr _ => true
  | .obj _ => true

/-- Lookup of an own property in the field list of an object. -/
def lookupField (k : String) : List (String × JSVal) → JSVal
  | [] => .undefined
  | (k', v) :: rest => if k' = k then v else lookupField k rest

/-- Property read `a.k` for the property names the script uses (`type`,
`selector`, `milliseconds`, `text`, `key`, `script`): an own property of an
object, `undefined` on every other value. -/
def JSVal.get (a : JSVal) (k : String) : JSVal :=
  match a with
  | .obj fields => lookupField k fields
  | _ => .undefined

/-- Strict comparison `v === 'lit'` with a string literal. -/
def JSVal.isStr (v : JSVal) (lit : String) : Bool :=
  match v with
  | .str s => decide (s = lit)
  | _ => false

/-- Line 31: `const t = a && a.type`. -/
def actionType (a : JSVal) : JSVal :=
  if a.truthy then a.get "type" else a

/-- A value that was thrown; `text` is what `e.toString()` gives. -/
structure JSErr where
  text : String

/-- The object printed on standard output (lines 140–144 and 147–151). -/
structure Result where
  status_code : Option Int
  error : Option String
  html : Option String

/-! ## Events -/

/-- Calls made on the puppeteer session. -/
inductive Call where
  | launch (headless : Bool)
  | newPage
  | goto (url : String)
  | click (sel : JSVal)
  | waitForSelector (sel : JSVal)
  | hover (sel : JSVal)
  | focus (sel : JSVal)
  | evaluateRound (sel : JSVal)
  | wheel (deltaY : Int)
  | keyPress (key : JSVal)
  | evaluateFinal (sel : JSVal)
  | type (sel : JSVal) (text : String)
  | keyboardType (text : String)
  | evaluate (script : JSVal)
  | content
  | close

/-- What a run does, in order.  `enter a` is a marker, not an effect: the body
of the `for (const a of actions)` loop was entered for the entry `a`. -/
inductive Event where
  | call (c : Call)
  | sleep (ms : ℚ)
  | enter (a : JSVal)
  | stdout (r : Result)
  | stderr (line : String)
  | exit (code : Nat)

/-! ## The browser -/

/-- The browser and the page, as the script sees them.  `W` is the state of
the world. -/
structure Browser (W : Type) where
  /-- A session call: the error it raises, if any, and the world afterwards. -/
  invoke : Call → W → Option JSErr × W
  /-- The world after `sleep(ms)` has resolved. -/
  pause : ℚ → W → W
  /-- Line 27 after a successful `goto`: `response ? response.status() : null`. -/
  responseStatus : W → Option Int
  /-- The string a successful `page.content()` resolves to. -/
  html : W → String
  /-- In the page: `document.querySelector(selector)`. -/
  querySelector : W → JSVal → Option Nat
  /-- In the page: the chain `parentElement`, `parentElement.parentElement`, ... -/
  ancestors : W → Nat → List Nat
  /-- In the page: `getComputedStyle(p).overflowY`. -/
  overflowY : W → Nat → String
  scrollHeight : W → Nat → Int
  clientHeight : W → Nat → Int
  scrollTop : W → Nat → Int
  /-- In the page: `typeof container.scrollTo === 'function'`. -/
  hasScrollTo : W → Nat → Bool
  scrollingElement : W → Option Nat
  documentElement : W → Nat
  /-- In the page: `container.scrollTo({ top, left: 0, behavior: 'instant' })`. -/
  scrollTo : Nat → Int → W → W
  /-- In the page: `container.scrollTop = top`. -/
  setScrollTop : Nat → Int → W → W
  /-- In the page: `container.dispatchEvent(new Event('scroll', ...))`. -/
  dispatchScroll : Nat → W → W
  /-- In the page: `el.scrollIntoView({ behavior: 'instant', block: 'end' })`. -/
  scrollIntoView : Nat → W → W

/-! ## Computations -/

/-- Outcome of a computation. -/
structure Out (W : Type) (α : Type) where
  result : Except JSErr α
  world : W
  trace : List Event

/-- An `async` computation of the script. -/
def Run (W : Type) (α : Type) : Type := W → Out W α

/-- A computation that returns a value. -/
def Run.pure {W α : Type} (a : α) : Run W α := fun w => ⟨.ok a, w, []⟩

/-- Sequencing (`await x; f`). -/
def Run.bind {W α β : Type} (x : Run W α) (f : α → Run W β) : Run W β := fun w =>
  match (x w).result with
  | .ok a => ⟨(f a (x w).world).result, (f a (x w).world).world,
              (x w).trace ++ (f a (x w).world).trace⟩
  | .error e => ⟨.error e, (x w).world, (x w).trace⟩

instance instMonadRun {W : Type} : Monad (Run W) where
  pure := Run.pure
  bind := Run.bind

/-- Source construct `try { x } catch (e) { h e }`. -/
def Run.tryCatch {W α : Type} (x : Run W α) (h : JSErr → Run W α) : Run W α := fun w =>
  match (x w).result with
  | .ok a => ⟨.ok a, (x w).world, (x w).trace⟩
  | .error e => ⟨(h e (x w).world).result, (h e (x w).world).world,
                 (x w).trace ++ (h e (x w).world).trace⟩

/-- Source construct `try { x } catch {}`. -/
def attempt {W : Type} (x : Run W Unit) : Run W Unit :=
  Run.tryCatch x (fun _ => Run.pure ())

/-- An event without effect on the world. -/
def emit {W : Type} (ev : Event) : Run W Unit := fun w => ⟨.ok (), w, [ev]⟩

/-- A session call, awaited. -/
def invoke {W : Type} (B : Browser W) (c : Call) : Run W Unit := fun w =>
  match (B.invoke c w).1 with
  | none => ⟨.ok (), (B.invoke c w).2, [.call c]⟩
  | some e => ⟨.error e, (B.invoke c w).2, [.call c]⟩

/-- Line 3: `sleep(ms)`, awaited. -/
def sleep {W : Type} (B : Browser W) (ms : ℚ) : Run W Unit := fun w =>
  ⟨.ok (), B.pause ms w, [.sleep ms]⟩

/-- A computation inside the page: it cannot be interrupted and emits nothing. -/
def inPage {W α : Type} (f : W → α × W) : Run W α := fun w => ⟨.ok (f w).1, (f w).2, []⟩

/-- A read of the world. -/
def observe {W α : Type} (f : W → α) : Run W α := fun w => ⟨.ok (f w), w, []⟩

/-! ## The in-page callbacks of the scroll branch -/

/-- Lines 48–57 (and 83–92): the nearest proper ancestor whose `overflowY` is
`auto` or `scroll` and whose content is taller than its box, otherwise
`document.scrollingElement || document.documentElement`. -/
def getScrollParent {W : Type} (B : Browser W) (w : W) (node : Nat) : Nat :=
  match (B.ancestors w node).find?
      (fun p => (decide (B.overflowY w p = "auto") || decide (B.overflowY w p = "scroll"))
        && decide (B.scrollHeight w p > B.clientHeight w p)) with
  | some p => p
  | none => (B.scrollingElement w).getD (B.documentElement w)

/-- Line 59: `Math.max(0, container.scrollHeight - container.clientHeight)`. -/
def maxTopOf (scrollHeight clientHeight : Int) : Int := max 0 (scrollHeight - clientHeight)

/-- Line 60: `Math.max(Math.floor(container.clientHeight * 0.95), 800)`. -/
def stepByOf (clientHeight : Int) : Int := max (clientHeight * 95 / 100) 800

/-- Lines 63 and 65: `Math.min(container.scrollTop + stepBy, maxTop)`. -/
def targetTop (scrollTop stepBy maxTop : Int) : Int := min (scrollTop + stepBy) maxTop

/-- Lines 45–72: the callback of one scroll round; its value is `endReached`. -/
def scrollRound {W : Type} (B : Browser W) (selector : JSVal) (w : W) : Bool × W :=
  match B.querySelector w selector with
  | none => (true, w)
  | some el =>
    let container := getScrollParent B w el
    let maxTop := maxTopOf (B.scrollHeight w container) (B.clientHeight w container)
    let stepBy := stepByOf (B.clientHeight w container)
    let before := B.scrollTop w container
    let w1 := if B.hasScrollTo w container
      then B.scrollTo container (targetTop (B.scrollTop w container) stepBy maxTop) w
      else B.setScrollTop container (targetTop (B.scrollTop w container) stepBy maxTop) w
    let w2 := B.dispatchScroll container w1
    let w3 := B.scrollIntoView el w2
    let atEnd := decide (B.scrollTop w3 container ≥ maxTop)
    let moved := decide (B.scrollTop w3 container ≠ before)
    (atEnd || !moved, w3)

/-- Lines 80–101: the callback of the final forced scroll. -/
def forceBottom {W : Type} (B : Browser W) (selector : JSVal) (w : W) : Unit × W :=
  match B.querySelector w selector with
  | none => ((), w)
  | some el =>
    let container := getScrollParent B w el
    let maxTop := maxTopOf (B.scrollHeight w container) (B.clientHeight w container)
    let w1 := if B.hasScrollTo w container
      then B.scrollTo container maxTop w
      else B.setScrollTop container maxTop w
    ((), B.dispatchScroll container w1)

/-! ## The scroll branch -/

/-- Line 45: `await page.evaluate(<round callback>, sel)`.  The call may raise
(the page is gone, the selector is not valid, ...); otherwise the callback
runs in the page and its value comes back. -/
def evaluateRound {W : Type} (B : Browser W) (sel : JSVal) : Run W Bool := do
  invoke B (.evaluateRound sel)
  inPage (scrollRound B sel)

/-- Line 80: `await page.evaluate(<final callback>, sel)`. -/
def evaluateFinal {W : Type} (B : Browser W) (sel : JSVal) : Run W Unit := do
  invoke B (.evaluateFinal sel)
  inPage (forceBottom B sel)

/-- Lines 44–77: `for (let i = 0; i < 240; i++) { ...; if (endReached) break; }`,
with `n` the number of rounds still allowed (`240 - i`). -/
def scrollRounds {W : Type} (B : Browser W) (sel : JSVal) : Nat → Run W Unit
  | 0 => Run.pure ()
  | n + 1 => do
    let endReached ← evaluateRound B sel
    sleep B 120
    attempt (invoke B (.wheel 1200))
    attempt (invoke B (.keyPress (.str "PageDown")))
    if endReached then Run.pure () else scrollRounds B sel n

/-- Lines 39–103: the scroll branch when `sel` is truthy. -/
def scrollToEnd {W : Type} (B : Browser W) (sel : JSVal) : Run W Unit := do
  attempt (invoke B (.waitForSelector sel))
  attempt (invoke B (.hover sel))
  attempt (invoke B (.focus sel))
  scrollRounds B sel 240
  attempt (do
    evaluateFinal B sel
    sleep B 200)

/-- The value `maxTop` (line 59) computed by a round callback that runs in world
`w` and resolves the selector to `el`. -/
def roundMaxTop {W : Type} (B : Browser W) (w : W) (el : Nat) : Int :=
  maxTopOf (B.scrollHeight w (getScrollParent B w el)) (B.clientHeight w (getScrollParent B w el))

/-- The value `before` (line 61): the container's `scrollTop` at the start of the
round. -/
def roundBefore {W : Type} (B : Browser W) (w : W) (el : Nat) : Int :=
  B.scrollTop w (getScrollParent B w el)

/-- The value of `container.scrollTop` read on lines 69 and 70, once the scroll
of the round has been applied. -/
def roundAfter {W : Type} (B : Browser W) (sel : JSVal) (w : W) (el : Nat) : Int :=
  B.scrollTop (scrollRound B sel w).2 (getScrollParent B w el)

/-- The world at the end of a scroll round whose evaluation started in world `w`
and returned: after the callback, the pause of `120`, the wheel event and the
`PageDown` key press (lines 45–75). -/
def afterRound {W : Type} (B : Browser W) (sel : JSVal) (w : W) : W :=
  (B.invoke (.keyPress (.str "PageDown"))
    (B.invoke (.wheel 1200)
      (B.pause 120 (scrollRound B sel (B.invoke (.evaluateRound sel) w).2).2)).2).2

/-- The world in which the scroll rounds start: after `waitForSelector`, `hover`
and `focus`, each attempted (lines 39–42). -/
def scrollStart {W : Type} (B : Browser W) (sel : JSVal) (w : W) : W :=
  (B.invoke (.focus sel) (B.invoke (.hover sel) (B.invoke (.waitForSelector sel) w).2).2).2

/-- Whether a round evaluation raises, and with which error, among the rounds
that take place when at most `n` rounds are started from world `w`: the rounds
follow one another while the evaluation returns a falsy value.  This describes
the browser only; it says nothing of what the script does with the error. -/
def raisingRound {W : Type} (B : Browser W) (sel : JSVal) : Nat → W → Option JSErr
  | 0, _ => none
  | n + 1, w =>
    match (B.invoke (.evaluateRound sel) w).1 with
    | some e => some e
    | none =>
      if (scrollRound B sel (B.invoke (.evaluateRound sel) w).2).1 then none
      else raisingRound B sel n (afterRound B sel w)

/-- A well-behaved scroll container for the selector `sel`: in every world the
selector resolves to an element whose scroll container is `c`; the
`scrollHeight` and `clientHeight` of `c` are fixed; a scroll request, by
`scrollTo` or by assignment, leaves the `scrollTop` of `c` at exactly the
requested top; nothing else changes it (the scroll event, `scrollIntoView`,
the pauses, the session calls, wheel and key press included); and no round
evaluation raises. -/
structure Steady {W : Type} (B : Browser W) (sel : JSVal) (c : Nat)
    (scrollHeight clientHeight : Int) : Prop where
  found : ∀ w, ∃ el, B.querySelector w sel = some el ∧ getScrollParent B w el = c
  height : ∀ w, B.scrollHeight w c = scrollHeight
  client : ∀ w, B.clientHeight w c = clientHeight
  scrollTo_top : ∀ w top, B.scrollTop (B.scrollTo c top w) c = top
  setScrollTop_top : ∀ w top, B.scrollTop (B.setScrollTop c top w) c = top
  dispatch_top : ∀ w, B.scrollTop (B.dispatchScroll c w) c = B.scrollTop w c
  intoView_top : ∀ w el, B.scrollTop (B.scrollIntoView el w) c = B.scrollTop w c
  pause_top : ∀ w ms, B.scrollTop (B.pause ms w) c = B.scrollTop w c
  invoke_top : ∀ w call, B.scrollTop (B.invoke call w).2 c = B.scrollTop w c
  rounds_return : ∀ w, (B.invoke (.evaluateRound sel) w).1 = none

/-- The events of a scroll round whose evaluation returned (lines 45–75). -/
def roundEvents (sel : JSVal) : List Event :=
  [.call (.evaluateRound sel), .sleep 120, .call (.wheel 1200),
   .call (.keyPress (.str "PageDown"))]

/-! ## The action loop -/

/-- Line 110: `Number.isFinite(a.milliseconds) ? a.milliseconds : 1000`. -/
def waitMs (a : JSVal) : ℚ :=
  match a.get "milliseconds" with
  | .num (.fin q) => q
  | _ => 1000

/-- Line 113: `typeof a.text === 'string' ? a.text : ''`. -/
def writeText (a : JSVal) : String :=
  match a.get "text" with
  | .str s => s
  | _ => ""

/-- Line 121: `a.key || 'Enter'`. -/
def pressKey (a : JSVal) : JSVal :=
  if (a.get "key").truthy then a.get "key" else .str "Enter"

/-- Lines 33–131: the body of the per-action `try`, for the entry `a` with
`t = a && a.type`. -/
def execAction {W : Type} (B : Browser W) (a : JSVal) (t : JSVal) : Run W Unit :=
  if t.isStr "click" && (a.get "selector").truthy then do
    invoke B (.click (a.get "selector"))
    sleep B 800
  else if t.isStr "scroll" then do
    (if (a.get "selector").truthy then scrollToEnd B (a.get "selector") else sleep B 200)
    sleep B 800
  else if t.isStr "wait" then
    sleep B (waitMs a)
  else if t.isStr "write" then
    (if (a.get "selector").truthy then do
      attempt (invoke B (.click (a.get "selector")))
      invoke B (.type (a.get "selector") (writeText a))
    else
      invoke B (.keyboardType (writeText a)))
  else if t.isStr "press" then do
    (if (a.get "selector").truthy then attempt (invoke B (.focus (a.get "selector")))
      else Run.pure ())
    invoke B (.keyPress (pressKey a))
  else if t.isStr "executeJavascript" then
    (if (a.get "script").truthy then invoke B (.evaluate (a.get "script")) else Run.pure ())
  else Run.pure ()

/-- Lines 30–135, one iteration: `const t = a && a.type; try { ... } catch (_) {}`. -/
def runAction {W : Type} (B : Browser W) (a : JSVal) : Run W Unit := do
  emit (.enter a)
  attempt (execAction B a (actionType a))

/-- Lines 30–135: `for (const a of actions) { ... }`. -/
def runActions {W : Type} (B : Browser W) : List JSVal → Run W Unit
  | [] => Run.pure ()
  | a :: rest => do
    runAction B a
    runActions B rest

/-- Lines 29–137: the loop runs when `actions` is a non-empty array, and is
followed by `sleep(600)`. -/
def actionPhase {W : Type} (B : Browser W) (actions : JSVal) : Run W Unit :=
  match actions with
  | .arr (a :: rest) => do
    runActions B (a :: rest)
    sleep B 600
  | _ => Run.pure ()

/-! ## `main` -/

/-- Line 142: `status && status < 400 ? null : "HTTP error: " + status` (a template
literal in the source). -/
def httpError (status : Option Int) : Option String :=
  match status with
  | some s => if s ≠ 0 ∧ s < 400 then none else some ("HTTP error: " ++ toString s)
  | none => some "HTTP error: null"

/-- Line 138: `await page.content()`. -/
def content {W : Type} (B : Browser W) : Run W String := do
  invoke B .content
  observe B.html

/-- Lines 25–27, with `browser` assigned: the page is created and navigated;
the value is `status`. -/
def navigate {W : Type} (B : Browser W) (url : String) : Run W (Option Int) := do
  invoke B .newPage
  invoke B (.goto url)
  observe B.responseStatus

/-- Lines 29–144: the actions, the content capture, the close and the line
written on the normal path. -/
def finish {W : Type} (B : Browser W) (status : Option Int) (actions : JSVal) : Run W Unit := do
  actionPhase B actions
  let html ← content B
  invoke B .close
  emit (.stdout ⟨status, httpError status, some html⟩)

/-- Lines 25–144: the `try` block once `browser` has been assigned. -/
def sessionSteps {W : Type} (B : Browser W) (url : String) (actions : JSVal) : Run W Unit := do
  let status ← navigate B url
  finish B status actions

/-- Lines 23–144: the whole `try` block. -/
def tryBlock {W : Type} (B : Browser W) (url : String) (actions : JSVal) (headful : Bool) :
    Run W Unit := do
  invoke B (.launch (!headful))
  sessionSteps B url actions

/-- Lines 145–152: the `catch (e)` block; `browserSet` is the truthiness of the
variable `browser`. -/
def catchBlock {W : Type} (B : Browser W) (browserSet : Bool) (e : JSErr) : Run W Unit := do
  (if browserSet then invoke B .close else Run.pure ())
  emit (.stdout ⟨none, some e.text, none⟩)

/-- Lines 18–19: the report of a missing URL, and `process.exit(1)`. -/
def noUrl {W : Type} : Run W Unit := do
  emit (.stderr "\x7b\"error\":\"No URL provided\"\x7d")
  emit (.exit 1)

/-- Lines 21–152: `let browser; try { ... } catch (e) { ... }`.  The variable
`browser` is assigned exactly when `launch` has returned, so the `catch` block
runs with `browser` unset when `launch` raised and with `browser` set when a
later step raised. -/
def guarded {W : Type} (B : Browser W) (url : String) (actions : JSVal) (headful : Bool) :
    Run W Unit := do
  let raised ← Run.tryCatch
    (do invoke B (.launch (!headful)); Run.pure none) (fun e => Run.pure (some e))
  match raised with
  | some e => catchBlock B false e
  | none => Run.tryCatch (sessionSteps B url actions) (catchBlock B true)

/-- Lines 5–153.  `url` is `process.argv[2]`; `decoded` is the value of the
decoded payload (`none` when there is no payload or decoding it raised, lines
7–16); `headful` is the environment flag of line 23. -/
def main {W : Type} (B : Browser W) (url : Option String) (decoded : Option JSVal)
    (headful : Bool) : Run W Unit :=
  match url with
  | none => noUrl
  | some u => if u = "" then noUrl else guarded B u (decoded.getD (.arr [])) headful

/-! ## Reading a trace -/

/-- The `Result` lines written to standard output, in order. -/
def stdoutLines : List Event → List Result
  | [] => []
  | .stdout r :: rest => r :: stdoutLines rest
  | _ :: rest => stdoutLines rest

/-- The list entries for which the loop body was entered, in order. -/
def entered : List Event → List JSVal
  | [] => []
  | .enter a :: rest => a :: entered rest
  | _ :: rest => entered rest

/-- The session calls, in order. -/
def sessionCalls : List Event → List Call
  | [] => []
  | .call c :: rest => c :: sessionCalls rest
  | _ :: rest => sessionCalls rest

/-- The pauses requested, in order. -/
def pauses : List Event → List ℚ
  | [] => []
  | .sleep ms :: rest => ms :: pauses rest
  | _ :: rest => pauses rest

/-- Whether an event is a round evaluation (line 45). -/
def Event.isRound : Event → Bool
  | .call (.evaluateRound _) => true
  | _ => false

/-- Whether an event is the final forced-scroll evaluation (line 80). -/
def Event.isFinal : Event → Bool
  | .call (.evaluateFinal _) => true
  | _ => false

/-- Whether an event is the call `browser.close()`. -/
def Event.isClose : Event → Bool
  | .call .close => true
  | _ => false

/-- Whether an event is a line written to standard output. -/
def Event.isStdout : Event → Bool
  | .stdout _ => true
  | _ => false

/-- Whether an event is a loop-entry marker. -/
def Event.isEnter : Event → Bool
  | .enter _ => true
  | _ => false

/-- No event of the computation satisfies `p`. -/
def Avoids {W α : Type} (p : Event → Bool) (x : Run W α) : Prop :=
  ∀ w, ∀ ev ∈ (x w).trace, p ev = false

/-- Number of scroll rounds started. -/
def roundCount (tr : List Event) : Nat := tr.countP Event.isRound

/-- Number of final forced-scroll evaluations attempted. -/
def finalCount (tr : List Event) : Nat := tr.countP Event.isFinal

/-! ## Browsers used as concrete inputs -/

/-- A browser without state: `raises` tells which calls raise, `status` is the
status of the response, and no element matches any selector. -/
def scripted (raises : Call → Option JSErr) (status : Option Int) : Browser Unit where
  invoke := fun c w => (raises c, w)
  pause := fun _ w => w
  responseStatus := fun _ => status
  html := fun _ => "<html></html>"
  querySelector := fun _ _ => none
  ancestors := fun _ _ => []
  overflowY := fun _ _ => "visible"
  scrollHeight := fun _ _ => 0
  clientHeight := fun _ _ => 0
  scrollTop := fun _ _ => 0
  hasScrollTo := fun _ _ => true
  scrollingElement := fun _ => some 0
  documentElement := fun _ => 0
  scrollTo := fun _ _ w => w
  setScrollTop := fun _ _ w => w
  dispatchScroll := fun _ w => w
  scrollIntoView := fun _ w => w

/-- No call raises. -/
def raisesNothing : Call → Option JSErr := fun _ => none

/-- Only `goto` raises. -/
def raisesOnGoto : Call → Option JSErr
  | .goto _ => some ⟨"TimeoutError: Navigation timeout of 30000 ms exceeded"⟩
  | _ => none

/-- Both `goto` and `close` raise. -/
def raisesOnGotoAndClose : Call → Option JSErr
  | .goto _ => some ⟨"TimeoutError: Navigation timeout of 30000 ms exceeded"⟩
  | .close => some ⟨"Error: Protocol error: Connection closed"⟩
  | _ => none

/-- Only `close` raises. -/
def raisesOnClose : Call → Option JSErr
  | .close => some ⟨"Error: Protocol error: Connection closed"⟩
  | _ => none

/-- Only the round evaluation of the scroll loop raises. -/
def raisesOnRound : Call → Option JSErr
  | .evaluateRound _ => some ⟨"Error: Execution context was destroyed"⟩
  | _ => none

/-- A page with one scroll container, the document scroller (element `0`), of
fixed `scrollHeight` and `clientHeight`.  The world is the `scrollTop` of the
container: a scroll request sets it to the requested top and nothing else
changes it.  Element `1` matches every selector; no call raises.
`viaScrollTo` tells whether `container.scrollTo` is a function. -/
def steadyPage (scrollHeight clientHeight : Int) (viaScrollTo : Bool) : Browser Int where
  invoke := fun _ w => (none, w)
  pause := fun _ w => w
  responseStatus := fun _ => some 200
  html := fun _ => "<html></html>"
  querySelector := fun _ _ => some 1
  ancestors := fun _ _ => []
  overflowY := fun _ _ => "visible"
  scrollHeight := fun _ _ => scrollHeight
  clientHeight := fun _ _ => clientHeight
  scrollTop := fun w _ => w
  hasScrollTo := fun _ _ => viaScrollTo
  scrollingElement := fun _ => some 0
  documentElement := fun _ => 0
  scrollTo := fun _ top _ => top
  setScrollTop := fun _ top _ => top
  dispatchScroll := fun _ w => w
  scrollIntoView := fun _ w => w

/-- A scroll action with a selector. -/
def scrollAction : JSVal := .obj [("type", .str "scroll"), ("selector", .str "#feed")]

/-! ## Basic facts about computations -/

theorem bind_eq {W α β : Type} (x : Run W α) (f : α → Run W β) : (x >>= f) = Run.bind x f := rfl

theorem pure_eq {W α : Type} (a : α) : (Pure.pure a : Run W α) = Run.pure a := rfl

theorem bind_ok {W α β : Type} (x : Run W α) (f : α → Run W β) (w : W) (a : α)
    (h : (x w).result = .ok a) :
    Run.bind x f w = ⟨(f a (x w).world).result, (f a (x w).world).world,
      (x w).trace ++ (f a (x w).world).trace⟩ := by
  unfold Run.bind; rw [h]

theorem bind_error {W α β : Type} (x : Run W α) (f : α → Run W β) (w : W) (e : JSErr)
    (h : (x w).result = .error e) :
    Run.bind x f w = ⟨.error e, (x w).world, (x w).trace⟩ := by
  unfold Run.bind; rw [h]

theorem tryCatch_ok {W α : Type} (x : Run W α) (h : JSErr → Run W α) (w : W) (a : α)
    (hx : (x w).result = .ok a) : Run.tryCatch x h w = ⟨.ok a, (x w).world, (x w).trace⟩ := by
  unfold Run.tryCatch; rw [hx]

theorem tryCatch_error {W α : Type} (x : Run W α) (h : JSErr → Run W α) (w : W) (e : JSErr)
    (hx : (x w).result = .error e) :
    Run.tryCatch x h w = ⟨(h e (x w).world).result, (h e (x w).world).world,
      (x w).trace ++ (h e (x w).world).trace⟩ := by
  unfold Run.tryCatch; rw [hx]

theorem attempt_result {W : Type} (x : Run W Unit) (w : W) : (attempt x w).result = .ok () := by
  unfold attempt Run.tryCatch
  cases h : (x w).result <;> simp [Run.pure]

theorem attempt_trace {W : Type} (x : Run W Unit) (w : W) : (attempt x w).trace = (x w).trace := by
  unfold attempt Run.tryCatch
  cases h : (x w).result <;> simp [Run.pure]

theorem attempt_world {W : Type} (x : Run W Unit) (w : W) : (attempt x w).world = (x w).world := by
  unfold attempt Run.tryCatch
  cases h : (x w).result <;> simp [Run.pure]

theorem isStr_eq_true {v : JSVal} {lit : String} : v.isStr lit = true ↔ v = .str lit := by
  cases v <;> simp [JSVal.isStr]

/-! ## Events a computation never emits -/

theorem avoids_pure {W α : Type} (p : Event → Bool) (a : α) : Avoids p (Run.pure a : Run W α) := by
  intro w ev h; simp [Run.pure] at h

theorem avoids_bind {W α β : Type} (p : Event → Bool) (x : Run W α) (f : α → Run W β)
    (hx : Avoids p x) (hf : ∀ a, Avoids p (f a)) : Avoids p (Run.bind x f) := by
  intro w ev h
  cases hr : (x w).result with
  | error e => rw [bind_error x f w e hr] at h; exact hx w ev h
  | ok a =>
    rw [bind_ok x f w a hr] at h
    rcases List.mem_append.mp h with h | h
    · exact hx w ev h
    · exact hf a _ ev h

theorem avoids_tryCatch {W α : Type} (p : Event → Bool) (x : Run W α) (h : JSErr → Run W α)
    (hx : Avoids p x) (hh : ∀ e, Avoids p (h e)) : Avoids p (Run.tryCatch x h) := by
  intro w ev hm
  cases hr : (x w).result with
  | ok a => rw [tryCatch_ok x h w a hr] at hm; exact hx w ev hm
  | error e =>
    rw [tryCatch_error x h w e hr] at hm
    rcases List.mem_append.mp hm with hm | hm
    · exact hx w ev hm
    · exact hh e _ ev hm

theorem avoids_attempt {W : Type} (p : Event → Bool) (x : Run W Unit) (hx : Avoids p x) :
    Avoids p (attempt x) :=
  avoids_tryCatch p x _ hx (fun _ => avoids_pure p ())

theorem avoids_invoke {W : Type} (p : Event → Bool) (B : Browser W) (c : Call)
    (hc : p (.call c) = false) : Avoids p (invoke B c) := by
  intro w ev h
  unfold invoke at h
  cases hr : (B.invoke c w).1 <;> rw [hr] at h <;> simp at h <;> rw [h] <;> exact hc

theorem avoids_sleep {W : Type} (p : Event → Bool) (B : Browser W) (ms : ℚ)
    (hc : p (.sleep ms) = false) : Avoids p (sleep B ms) := by
  intro w ev h
  simp [sleep] at h
  rw [h]; exact hc

theorem avoids_inPage {W α : Type} (p : Event → Bool) (f : W → α × W) : Avoids p (inPage f) := by
  intro w ev h; simp [inPage] at h

theorem avoids_observe {W α : Type} (p : Event → Bool) (f : W → α) : Avoids p (observe f) := by
  intro w ev h; simp [observe] at h

theorem avoids_evaluateRound {W : Type} (p : Event → Bool) (B : Browser W) (sel : JSVal)
    (hc : ∀ c, p (.call c) = false) : Avoids p (evaluateRound B sel) :=
  avoids_bind p _ _ (avoids_invoke p B _ (hc _)) (fun _ => avoids_inPage p _)

theorem avoids_evaluateFinal {W : Type} (p : Event → Bool) (B : Browser W) (sel : JSVal)
    (hc : ∀ c, p (.call c) = false) : Avoids p (evaluateFinal B sel) :=
  avoids_bind p _ _ (avoids_invoke p B _ (hc _)) (fun _ => avoids_inPage p _)

theorem avoids_scrollRounds {W : Type} (p : Event → Bool) (B : Browser W) (sel : JSVal)
    (hc : ∀ c, p (.call c) = false) (hs : ∀ ms, p (.sleep ms) = false) (n : Nat) :
    Avoids p (scrollRounds B sel n) := by
  induction n with
  | zero => exact avoids_pure p ()
  | succ n ih =>
    unfold scrollRounds
    refine avoids_bind p _ _ (avoids_evaluateRound p B sel hc) (fun r => ?_)
    refine avoids_bind p _ _ (avoids_sleep p B _ (hs _)) (fun _ => ?_)
    refine avoids_bind p _ _ (avoids_attempt p _ (avoids_invoke p B _ (hc _))) (fun _ => ?_)
    refine avoids_bind p _ _ (avoids_attempt p _ (avoids_invoke p B _ (hc _))) (fun _ => ?_)
    cases r
    · simpa using ih
    · simpa using avoids_pure p ()

theorem avoids_scrollToEnd {W : Type} (p : Event → Bool) (B : Browser W) (sel : JSVal)
    (hc : ∀ c, p (.call c) = false) (hs : ∀ ms, p (.sleep ms) = false) :
    Avoids p (scrollToEnd B sel) := by
  unfold scrollToEnd
  refine avoids_bind p _ _ (avoids_attempt p _ (avoids_invoke p B _ (hc _))) (fun _ => ?_)
  refine avoids_bind p _ _ (avoids_attempt p _ (avoids_invoke p B _ (hc _))) (fun _ => ?_)
  refine avoids_bind p _ _ (avoids_attempt p _ (avoids_invoke p B _ (hc _))) (fun _ => ?_)
  refine avoids_bind p _ _ (avoids_scrollRounds p B sel hc hs 240) (fun _ => ?_)
  exact avoids_attempt p _
    (avoids_bind p _ _ (avoids_evaluateFinal p B sel hc) (fun _ => avoids_sleep p B _ (hs _)))

theorem avoids_execAction {W : Type} (p : Event → Bool) (B : Browser W) (a t : JSVal)
    (hc : ∀ c, p (.call c) = false) (hs : ∀ ms, p (.sleep ms) = false) :
    Avoids p (execAction B a t) := by
  unfold execAction
  split
  · exact avoids_bind p _ _ (avoids_invoke p B _ (hc _)) (fun _ => avoids_sleep p B _ (hs _))
  split
  · refine avoids_bind p _ _ ?_ (fun _ => avoids_sleep p B _ (hs _))
    split
    · exact avoids_scrollToEnd p B _ hc hs
    · exact avoids_sleep p B _ (hs _)
  split
  · exact avoids_sleep p B _ (hs _)
  split
  · split
    · exact avoids_bind p _ _ (avoids_attempt p _ (avoids_invoke p B _ (hc _)))
        (fun _ => avoids_invoke p B _ (hc _))
    · exact avoids_invoke p B _ (hc _)
  split
  · refine avoids_bind p _ _ ?_ (fun _ => avoids_invoke p B _ (hc _))
    split
    · exact avoids_attempt p _ (avoids_invoke p B _ (hc _))
    · exact avoids_pure p ()
  split
  · split
    · exact avoids_invoke p B _ (hc _)
    · exact avoids_pure p ()
  · exact avoids_pure p ()

/-! ## Reading traces -/

theorem stdoutLines_append (xs ys : List Event) :
    stdoutLines (xs ++ ys) = stdoutLines xs ++ stdoutLines ys := by
  induction xs with
  | nil => rfl
  | cons ev xs ih => cases ev <;> simp [stdoutLines, ih]

theorem entered_append (xs ys : List Event) : entered (xs ++ ys) = entered xs ++ entered ys := by
  induction xs with
  | nil => rfl
  | cons ev xs ih => cases ev <;> simp [entered, ih]

theorem stdoutLines_eq_nil (xs : List Event) (h : ∀ ev ∈ xs, ev.isStdout = false) :
    stdoutLines xs = [] := by
  induction xs with
  | nil => rfl
  | cons ev xs ih =>
    have h1 := h ev (by simp)
    have h2 := ih (fun ev hev => h ev (by simp [hev]))
    cases ev <;> simp_all [stdoutLines, Event.isStdout]

theorem entered_eq_nil (xs : List Event) (h : ∀ ev ∈ xs, ev.isEnter = false) :
    entered xs = [] := by
  induction xs with
  | nil => rfl
  | cons ev xs ih =>
    have h1 := h ev (by simp)
    have h2 := ih (fun ev hev => h ev (by simp [hev]))
    cases ev <;> simp_all [entered, Event.isEnter]

/-! ## The action loop -/

theorem runAction_result {W : Type} (B : Browser W) (a : JSVal) (w : W) :
    (runAction B a w).result = .ok () := by
  unfold runAction
  rw [bind_eq, bind_ok _ _ w () rfl]
  exact attempt_result _ _

theorem runAction_entered {W : Type} (B : Browser W) (a : JSVal) (w : W) :
    entered (runAction B a w).trace = [a] := by
  unfold runAction
  rw [bind_eq, bind_ok _ _ w () rfl]
  have h := avoids_attempt Event.isEnter _
    (avoids_execAction Event.isEnter B a (actionType a) (fun _ => rfl) (fun _ => rfl))
  simp only [entered_append]
  rw [entered_eq_nil _ (h _)]
  rfl

theorem runActions_result {W : Type} (B : Browser W) (xs : List JSVal) (w : W) :
    (runActions B xs w).result = .ok () := by
  induction xs generalizing w with
  | nil => rfl
  | cons a rest ih =>
    unfold runActions
    rw [bind_eq, bind_ok _ _ w () (runAction_result B a w)]
    exact ih _

theorem runActions_entered {W : Type} (B : Browser W) (xs : List JSVal) (w : W) :
    entered (runActions B xs w).trace = xs := by
  induction xs generalizing w with
  | nil => rfl
  | cons a rest ih =>
    unfold runActions
    rw [bind_eq, bind_ok _ _ w () (runAction_result B a w)]
    simp only [entered_append, runAction_entered, ih]
    rfl

theorem actionPhase_result {W : Type} (B : Browser W) (actions : JSVal) (w : W) :
    (actionPhase B actions w).result = .ok () := by
  unfold actionPhase
  split
  · rw [bind_eq, bind_ok _ _ w () (runActions_result B _ w)]
    rfl
  · rfl

theorem actionPhase_entered {W : Type} (B : Browser W) (xs : List JSVal) (w : W) :
    entered (actionPhase B (.arr xs) w).trace = xs := by
  cases xs with
  | nil => rfl
  | cons a rest =>
    unfold actionPhase
    simp only
    rw [bind_eq, bind_ok _ _ w () (runActions_result B _ w)]
    simp only [entered_append, runActions_entered]
    simp [sleep, entered]

theorem avoids_runActions {W : Type} (p : Event → Bool) (B : Browser W)
    (hc : ∀ c, p (.call c) = false) (hs : ∀ ms, p (.sleep ms) = false)
    (he : ∀ a, p (.enter a) = false) (xs : List JSVal) : Avoids p (runActions B xs) := by
  induction xs with
  | nil => exact avoids_pure p ()
  | cons a rest ih =>
    unfold runActions
    refine avoids_bind p _ _ ?_ (fun _ => ih)
    refine avoids_bind p _ _ ?_ (fun _ => avoids_attempt p _ (avoids_execAction p B a _ hc hs))
    intro w ev h
    simp [emit] at h
    rw [h]; exact he a

theorem avoids_actionPhase {W : Type} (p : Event → Bool) (B : Browser W)
    (hc : ∀ c, p (.call c) = false) (hs : ∀ ms, p (.sleep ms) = false)
    (he : ∀ a, p (.enter a) = false) (actions : JSVal) : Avoids p (actionPhase B actions) := by
  unfold actionPhase
  split
  · exact avoids_bind p _ _ (avoids_runActions p B hc hs he _) (fun _ => avoids_sleep p B _ (hs _))
  · exact avoids_pure p ()

/-! ## The `try` block and the `catch` block -/

theorem finish_eq {W : Type} (B : Browser W) (status : Option Int) (actions : JSVal) (w : W) :
    finish B status actions w =
      match (B.invoke .content (actionPhase B actions w).world).1 with
      | some e => ⟨.error e, (B.invoke .content (actionPhase B actions w).world).2,
                    (actionPhase B actions w).trace ++ [.call .content]⟩
      | none =>
        match (B.invoke .close (B.invoke .content (actionPhase B actions w).world).2).1 with
        | some e => ⟨.error e,
            (B.invoke .close (B.invoke .content (actionPhase B actions w).world).2).2,
            (actionPhase B actions w).trace ++ [.call .content, .call .close]⟩
        | none => ⟨.ok (),
            (B.invoke .close (B.invoke .content (actionPhase B actions w).world).2).2,
            (actionPhase B actions w).trace ++ [.call .content, .call .close,
              .stdout ⟨status, httpError status,
                some (B.html (B.invoke .content (actionPhase B actions w).world).2)⟩]⟩ := by
  unfold finish
  rw [bind_eq, bind_ok _ _ w () (actionPhase_result B actions w)]
  cases h1 : (B.invoke .content (actionPhase B actions w).world).1 with
  | some e => simp [bind_eq, Run.bind, content, invoke, h1]
  | none =>
    cases h2 : (B.invoke .close (B.invoke .content (actionPhase B actions w).world).2).1 with
    | some e => simp [bind_eq, Run.bind, content, invoke, observe, h1, h2]
    | none => simp [bind_eq, Run.bind, content, invoke, observe, emit, h1, h2]

theorem catchBlock_unset {W : Type} (B : Browser W) (e : JSErr) (w : W) :
    catchBlock B false e w = ⟨.ok (), w, [.stdout ⟨none, some e.text, none⟩]⟩ := by
  simp [catchBlock, bind_eq, Run.bind, Run.pure, emit]

theorem catchBlock_set {W : Type} (B : Browser W) (e : JSErr) (w : W) :
    catchBlock B true e w =
      match (B.invoke .close w).1 with
      | none => ⟨.ok (), (B.invoke .close w).2, [.call .close, .stdout ⟨none, some e.text, none⟩]⟩
      | some e2 => ⟨.error e2, (B.invoke .close w).2, [.call .close]⟩ := by
  cases h : (B.invoke .close w).1 <;> simp [catchBlock, bind_eq, Run.bind, invoke, emit, h]

theorem tryBlock_launch_raises {W : Type} (B : Browser W) (u : String) (actions : JSVal)
    (headful : Bool) (w : W) (e : JSErr) (h : (B.invoke (.launch (!headful)) w).1 = some e) :
    tryBlock B u actions headful w =
      ⟨.error e, (B.invoke (.launch (!headful)) w).2, [.call (.launch (!headful))]⟩ := by
  simp [tryBlock, bind_eq, Run.bind, invoke, h]

theorem tryBlock_launch_ok {W : Type} (B : Browser W) (u : String) (actions : JSVal)
    (headful : Bool) (w : W) (h : (B.invoke (.launch (!headful)) w).1 = none) :
    tryBlock B u actions headful w =
      ⟨(sessionSteps B u actions (B.invoke (.launch (!headful)) w).2).result,
       (sessionSteps B u actions (B.invoke (.launch (!headful)) w).2).world,
       .call (.launch (!headful)) ::
         (sessionSteps B u actions (B.invoke (.launch (!headful)) w).2).trace⟩ := by
  simp [tryBlock, bind_eq, Run.bind, invoke, h]

theorem guarded_launch_raises {W : Type} (B : Browser W) (u : String) (actions : JSVal)
    (headful : Bool) (w : W) (e : JSErr) (h : (B.invoke (.launch (!headful)) w).1 = some e) :
    guarded B u actions headful w =
      ⟨.ok (), (B.invoke (.launch (!headful)) w).2,
       [.call (.launch (!headful)), .stdout ⟨none, some e.text, none⟩]⟩ := by
  simp [guarded, bind_eq, Run.bind, Run.tryCatch, Run.pure, invoke, h, catchBlock_unset]

theorem guarded_launch_ok {W : Type} (B : Browser W) (u : String) (actions : JSVal)
    (headful : Bool) (w : W) (h : (B.invoke (.launch (!headful)) w).1 = none) :
    guarded B u actions headful w =
      ⟨(Run.tryCatch (sessionSteps B u actions) (catchBlock B true)
          (B.invoke (.launch (!headful)) w).2).result,
       (Run.tryCatch (sessionSteps B u actions) (catchBlock B true)
          (B.invoke (.launch (!headful)) w).2).world,
       .call (.launch (!headful)) ::
         (Run.tryCatch (sessionSteps B u actions) (catchBlock B true)
          (B.invoke (.launch (!headful)) w).2).trace⟩ := by
  simp [guarded, bind_eq, Run.bind, Run.tryCatch, Run.pure, invoke, h]

/-- When the `try` block completes, `main` is the `try` block. -/
theorem guarded_of_ok {W : Type} (B : Browser W) (u : String) (actions : JSVal)
    (headful : Bool) (w : W) (h : (tryBlock B u actions headful w).result = .ok ()) :
    guarded B u actions headful w = tryBlock B u actions headful w := by
  cases hl : (B.invoke (.launch (!headful)) w).1 with
  | some e => rw [tryBlock_launch_raises B u actions headful w e hl] at h; simp at h
  | none =>
    rw [tryBlock_launch_ok B u actions headful w hl] at h ⊢
    rw [guarded_launch_ok B u actions headful w hl]
    simp only at h
    rw [tryCatch_ok _ _ _ () h]
    simp [h]

/-- When the `try` block raises, `main` is the `try` block followed by the
`catch` block, with `browser` set exactly when `launch` returned. -/
theorem guarded_of_error {W : Type} (B : Browser W) (u : String) (actions : JSVal)
    (headful : Bool) (w : W) (e : JSErr)
    (h : (tryBlock B u actions headful w).result = .error e) :
    guarded B u actions headful w =
      ⟨(catchBlock B ((B.invoke (.launch (!headful)) w).1).isNone e
          (tryBlock B u actions headful w).world).result,
       (catchBlock B ((B.invoke (.launch (!headful)) w).1).isNone e
          (tryBlock B u actions headful w).world).world,
       (tryBlock B u actions headful w).trace ++
         (catchBlock B ((B.invoke (.launch (!headful)) w).1).isNone e
          (tryBlock B u actions headful w).world).trace⟩ := by
  cases hl : (B.invoke (.launch (!headful)) w).1 with
  | some e2 =>
    rw [tryBlock_launch_raises B u actions headful w e2 hl] at h ⊢
    rw [guarded_launch_raises B u actions headful w e2 hl]
    simp only [Except.error.injEq] at h
    simp [catchBlock_unset, h]
  | none =>
    rw [tryBlock_launch_ok B u actions headful w hl] at h ⊢
    rw [guarded_launch_ok B u actions headful w hl]
    simp only at h
    rw [tryCatch_error _ _ _ e h]
    simp

theorem avoids_navigate {W : Type} (p : Event → Bool) (B : Browser W) (u : String)
    (hc : ∀ c, p (.call c) = false) : Avoids p (navigate B u) :=
  avoids_bind p _ _ (avoids_invoke p B _ (hc _))
    (fun _ => avoids_bind p _ _ (avoids_invoke p B _ (hc _)) (fun _ => avoids_observe p _))

theorem actionPhase_stdout {W : Type} (B : Browser W) (actions : JSVal) (w : W) :
    stdoutLines (actionPhase B actions w).trace = [] :=
  stdoutLines_eq_nil _
    (avoids_actionPhase Event.isStdout B (fun _ => rfl) (fun _ => rfl) (fun _ => rfl) actions w)

theorem finish_ok {W : Type} (B : Browser W) (status : Option Int) (actions : JSVal) (w : W)
    (h : (finish B status actions w).result = .ok ()) :
    ∃ pre html, (finish B status actions w).trace =
        pre ++ [.stdout ⟨status, httpError status, some html⟩] ∧
      stdoutLines pre = [] ∧ .call .close ∈ pre := by
  rw [finish_eq] at h ⊢
  cases h1 : (B.invoke .content (actionPhase B actions w).world).1 with
  | some e => rw [h1] at h; simp at h
  | none =>
    cases h2 : (B.invoke .close (B.invoke .content (actionPhase B actions w).world).2).1 with
    | some e => rw [h1] at h; simp only at h; rw [h2] at h; simp at h
    | none =>
      refine ⟨(actionPhase B actions w).trace ++ [.call .content, .call .close],
        B.html (B.invoke .content (actionPhase B actions w).world).2, ?_, ?_, ?_⟩
      · simp
      · simp [stdoutLines_append, actionPhase_stdout, stdoutLines]
      · simp

theorem finish_error {W : Type} (B : Browser W) (status : Option Int) (actions : JSVal) (w : W)
    (e : JSErr) (h : (finish B status actions w).result = .error e) :
    stdoutLines (finish B status actions w).trace = [] := by
  rw [finish_eq] at h ⊢
  cases h1 : (B.invoke .content (actionPhase B actions w).world).1 with
  | some e => simp [stdoutLines_append, actionPhase_stdout, stdoutLines]
  | none =>
    cases h2 : (B.invoke .close (B.invoke .content (actionPhase B actions w).world).2).1 with
    | some e => simp [stdoutLines_append, actionPhase_stdout, stdoutLines]
    | none => rw [h1] at h; simp only at h; rw [h2] at h; simp at h

theorem sessionSteps_ok {W : Type} (B : Browser W) (u : String) (actions : JSVal) (w : W)
    (h : (sessionSteps B u actions w).result = .ok ()) :
    ∃ pre status html, (sessionSteps B u actions w).trace =
        pre ++ [.stdout ⟨status, httpError status, some html⟩] ∧
      stdoutLines pre = [] ∧ .call .close ∈ pre ∧ (navigate B u w).result = .ok status := by
  unfold sessionSteps at h ⊢
  rw [bind_eq] at h ⊢
  cases hn : (navigate B u w).result with
  | error e => rw [bind_error _ _ w e hn] at h; simp at h
  | ok status =>
    rw [bind_ok _ _ w status hn] at h ⊢
    obtain ⟨pre, html, h1, h2, h3⟩ := finish_ok B status actions _ h
    refine ⟨(navigate B u w).trace ++ pre, status, html, ?_, ?_, ?_, rfl⟩
    · simp [h1]
    · rw [stdoutLines_append, h2,
        stdoutLines_eq_nil _ (avoids_navigate Event.isStdout B u (fun _ => rfl) w)]
      rfl
    · simp [h3]

theorem sessionSteps_error {W : Type} (B : Browser W) (u : String) (actions : JSVal) (w : W)
    (e : JSErr) (h : (sessionSteps B u actions w).result = .error e) :
    stdoutLines (sessionSteps B u actions w).trace = [] := by
  unfold sessionSteps at h ⊢
  rw [bind_eq] at h ⊢
  cases hn : (navigate B u w).result with
  | error e2 =>
    rw [bind_error _ _ w e2 hn]
    exact stdoutLines_eq_nil _ (avoids_navigate Event.isStdout B u (fun _ => rfl) w)
  | ok status =>
    rw [bind_ok _ _ w status hn] at h ⊢
    simp only [stdoutLines_append]
    rw [finish_error B status actions _ e h,
      stdoutLines_eq_nil _ (avoids_navigate Event.isStdout B u (fun _ => rfl) w)]
    rfl

theorem tryBlock_ok {W : Type} (B : Browser W) (u : String) (actions : JSVal) (headful : Bool)
    (w : W) (h : (tryBlock B u actions headful w).result = .ok ()) :
    (B.invoke (.launch (!headful)) w).1 = none ∧
    ∃ pre status html, (tryBlock B u actions headful w).trace =
        pre ++ [.stdout ⟨status, httpError status, some html⟩] ∧
      stdoutLines pre = [] ∧ .call .close ∈ pre ∧
      (navigate B u (B.invoke (.launch (!headful)) w).2).result = .ok status := by
  cases hl : (B.invoke (.launch (!headful)) w).1 with
  | some e => rw [tryBlock_launch_raises B u actions headful w e hl] at h; simp at h
  | none =>
    rw [tryBlock_launch_ok B u actions headful w hl] at h ⊢
    obtain ⟨pre, status, html, h1, h2, h3, h4⟩ := sessionSteps_ok B u actions _ h
    refine ⟨rfl, .call (.launch (!headful)) :: pre, status, html, ?_, ?_, ?_, h4⟩
    · simp [h1]
    · simpa [stdoutLines] using h2
    · simp [h3]

theorem tryBlock_error {W : Type} (B : Browser W) (u : String) (actions : JSVal) (headful : Bool)
    (w : W) (e : JSErr) (h : (tryBlock B u actions headful w).result = .error e) :
    stdoutLines (tryBlock B u actions headful w).trace = [] := by
  cases hl : (B.invoke (.launch (!headful)) w).1 with
  | some e2 => rw [tryBlock_launch_raises B u actions headful w e2 hl]; rfl
  | none =>
    rw [tryBlock_launch_ok B u actions headful w hl] at h ⊢
    simpa [stdoutLines] using sessionSteps_error B u actions _ e h

theorem main_eq_guarded {W : Type} (B : Browser W) (u : String) (hu : u ≠ "")
    (decoded : Option JSVal) (headful : Bool) :
    main B (some u) decoded headful = guarded B u (decoded.getD (.arr [])) headful := by
  simp [main, hu]

theorem httpError_isSome_iff (status : Option Int) :
    httpError status ≠ none ↔ (status = none ∨ status = some 0 ∨ ∃ s, status = some s ∧ 400 ≤ s) := by
  cases status with
  | none => simp [httpError]
  | some s =>
    by_cases h0 : s = 0
    · simp [httpError, h0]
    · by_cases h4 : s < 400
      · simp [httpError, h0, h4]
      · simp [httpError, h0, h4]; omega

theorem httpError_eq_none_iff (status : Option Int) :
    httpError status = none ↔ ∃ s, status = some s ∧ s ≠ 0 ∧ s < 400 := by
  cases status with
  | none => simp [httpError]
  | some s =>
    by_cases h0 : s = 0
    · simp [httpError, h0]
    · by_cases h4 : s < 400
      · simp [httpError, h0, h4]
      · simp [httpError, h0, h4]

/-! ## The scroll branch -/

theorem attempt_invoke {W : Type} (B : Browser W) (c : Call) (w : W) :
    attempt (invoke B c) w = ⟨.ok (), (B.invoke c w).2, [.call c]⟩ := by
  unfold attempt Run.tryCatch invoke
  cases h : (B.invoke c w).1 <;> simp [Run.pure]

theorem scrollRounds_raise {W : Type} (B : Browser W) (sel : JSVal) (n : Nat) (w : W) (e : JSErr)
    (h : (B.invoke (.evaluateRound sel) w).1 = some e) :
    scrollRounds B sel (n + 1) w =
      ⟨.error e, (B.invoke (.evaluateRound sel) w).2, [.call (.evaluateRound sel)]⟩ := by
  simp [scrollRounds, bind_eq, Run.bind, evaluateRound, invoke, h]

theorem scrollRounds_stop {W : Type} (B : Browser W) (sel : JSVal) (n : Nat) (w : W)
    (h : (B.invoke (.evaluateRound sel) w).1 = none)
    (hr : (scrollRound B sel (B.invoke (.evaluateRound sel) w).2).1 = true) :
    scrollRounds B sel (n + 1) w = ⟨.ok (), afterRound B sel w, roundEvents sel⟩ := by
  simp [scrollRounds, bind_eq, Run.bind, evaluateRound, invoke, h, inPage, sleep,
    attempt_invoke, hr, Run.pure, afterRound, roundEvents]

theorem scrollRounds_continue {W : Type} (B : Browser W) (sel : JSVal) (n : Nat) (w : W)
    (h : (B.invoke (.evaluateRound sel) w).1 = none)
    (hr : (scrollRound B sel (B.invoke (.evaluateRound sel) w).2).1 = false) :
    scrollRounds B sel (n + 1) w =
      ⟨(scrollRounds B sel n (afterRound B sel w)).result,
       (scrollRounds B sel n (afterRound B sel w)).world,
       roundEvents sel ++ (scrollRounds B sel n (afterRound B sel w)).trace⟩ := by
  simp [scrollRounds, bind_eq, Run.bind, evaluateRound, invoke, h, inPage, sleep,
    attempt_invoke, hr, afterRound, roundEvents]

theorem roundCount_append (xs ys : List Event) :
    roundCount (xs ++ ys) = roundCount xs + roundCount ys := by
  simp [roundCount]

theorem finalCount_append (xs ys : List Event) :
    finalCount (xs ++ ys) = finalCount xs + finalCount ys := by
  simp [finalCount]

theorem roundCount_roundEvents (sel : JSVal) : roundCount (roundEvents sel) = 1 := by
  simp [roundCount, roundEvents, Event.isRound]

theorem finalCount_roundEvents (sel : JSVal) : finalCount (roundEvents sel) = 0 := by
  simp [finalCount, roundEvents, Event.isFinal]

theorem scrollRounds_counts {W : Type} (B : Browser W) (sel : JSVal) (n : Nat) (w : W) :
    roundCount (scrollRounds B sel n w).trace ≤ n ∧
    finalCount (scrollRounds B sel n w).trace = 0 := by
  induction n generalizing w with
  | zero => exact ⟨Nat.le_refl 0, rfl⟩
  | succ n ih =>
    cases h : (B.invoke (.evaluateRound sel) w).1 with
    | some e =>
      rw [scrollRounds_raise B sel n w e h]
      simp [roundCount, finalCount, Event.isRound, Event.isFinal]
    | none =>
      cases hr : (scrollRound B sel (B.invoke (.evaluateRound sel) w).2).1 with
      | true =>
        rw [scrollRounds_stop B sel n w h hr]
        simp [roundCount_roundEvents, finalCount_roundEvents]
      | false =>
        rw [scrollRounds_continue B sel n w h hr]
        have := ih (afterRound B sel w)
        simp only [roundCount_append, finalCount_append, roundCount_roundEvents,
          finalCount_roundEvents]
        omega

/-- The rounds raise only when a round evaluation raises. -/
theorem scrollRounds_ok_of_rounds_return {W : Type} (B : Browser W) (sel : JSVal)
    (hret : ∀ w, (B.invoke (.evaluateRound sel) w).1 = none) (n : Nat) (w : W) :
    (scrollRounds B sel n w).result = .ok () := by
  induction n generalizing w with
  | zero => rfl
  | succ n ih =>
    cases hr : (scrollRound B sel (B.invoke (.evaluateRound sel) w).2).1 with
    | true => rw [scrollRounds_stop B sel n w (hret w) hr]
    | false => rw [scrollRounds_continue B sel n w (hret w) hr]; exact ih _

theorem scrollToEnd_eq {W : Type} (B : Browser W) (sel : JSVal) (w : W) :
    scrollToEnd B sel w =
      match (scrollRounds B sel 240 (scrollStart B sel w)).result with
      | .error e => ⟨.error e, (scrollRounds B sel 240 (scrollStart B sel w)).world,
          [.call (.waitForSelector sel), .call (.hover sel), .call (.focus sel)] ++
            (scrollRounds B sel 240 (scrollStart B sel w)).trace⟩
      | .ok _ => ⟨.ok (),
          (attempt (do evaluateFinal B sel; sleep B 200)
            (scrollRounds B sel 240 (scrollStart B sel w)).world).world,
          [.call (.waitForSelector sel), .call (.hover sel), .call (.focus sel)] ++
            (scrollRounds B sel 240 (scrollStart B sel w)).trace ++
            .call (.evaluateFinal sel) ::
              (match (B.invoke (.evaluateFinal sel)
                  (scrollRounds B sel 240 (scrollStart B sel w)).world).1 with
               | none => [.sleep 200]
               | some _ => [])⟩ := by
  unfold scrollToEnd scrollStart
  simp only [bind_eq]
  rw [bind_ok _ _ w () (attempt_result _ _)]
  simp only [attempt_invoke]
  rw [bind_ok _ _ _ () (attempt_result _ _)]
  simp only [attempt_invoke]
  rw [bind_ok _ _ _ () (attempt_result _ _)]
  simp only [attempt_invoke]
  cases hR : (scrollRounds B sel 240 (B.invoke (.focus sel) (B.invoke (.hover sel)
      (B.invoke (.waitForSelector sel) w).2).2).2).result with
  | error e =>
    rw [bind_error _ _ _ e hR]
    simp
  | ok x =>
    rw [bind_ok _ _ _ x hR]
    simp only [attempt_result, attempt_trace, attempt_world]
    cases hf : (B.invoke (.evaluateFinal sel) (scrollRounds B sel 240 (B.invoke (.focus sel)
        (B.invoke (.hover sel) (B.invoke (.waitForSelector sel) w).2).2).2).world).1 with
    | none => simp [bind_eq, Run.bind, evaluateFinal, invoke, hf, inPage, sleep]
    | some e => simp [bind_eq, Run.bind, evaluateFinal, invoke, hf]

/-- The loop raises exactly the error of the round evaluation that raises. -/
theorem scrollRounds_result_of_raising {W : Type} (B : Browser W) (sel : JSVal) (n : Nat)
    (w : W) :
    (scrollRounds B sel n w).result =
      match raisingRound B sel n w with
      | some e => .error e
      | none => .ok () := by
  induction n generalizing w with
  | zero => rfl
  | succ n ih =>
    cases h : (B.invoke (.evaluateRound sel) w).1 with
    | some e =>
      rw [scrollRounds_raise B sel n w e h]
      simp [raisingRound, h]
    | none =>
      cases hr : (scrollRound B sel (B.invoke (.evaluateRound sel) w).2).1 with
      | true =>
        rw [scrollRounds_stop B sel n w h hr]
        simp [raisingRound, h, hr]
      | false =>
        rw [scrollRounds_continue B sel n w h hr]
        simp [raisingRound, h, hr, ih]

theorem scrollRounds_error_last {W : Type} (B : Browser W) (sel : JSVal) (n : Nat) (w : W)
    (e : JSErr) (he : (scrollRounds B sel n w).result = .error e) :
    ∃ pre, (scrollRounds B sel n w).trace = pre ++ [.call (.evaluateRound sel)] := by
  induction n generalizing w with
  | zero => simp [scrollRounds, Run.pure] at he
  | succ n ih =>
    cases h : (B.invoke (.evaluateRound sel) w).1 with
    | some e2 =>
      rw [scrollRounds_raise B sel n w e2 h]
      exact ⟨[], rfl⟩
    | none =>
      cases hr : (scrollRound B sel (B.invoke (.evaluateRound sel) w).2).1 with
      | true => rw [scrollRounds_stop B sel n w h hr] at he; simp at he
      | false =>
        rw [scrollRounds_continue B sel n w h hr] at he ⊢
        obtain ⟨pre, hpre⟩ := ih _ he
        exact ⟨roundEvents sel ++ pre, by simp [hpre]⟩

theorem execAction_scroll {W : Type} (B : Browser W) (a : JSVal) (w : W)
    (ht : (actionType a).isStr "scroll" = true) (hs : (a.get "selector").truthy = true) :
    execAction B a (actionType a) w =
      match (scrollToEnd B (a.get "selector") w).result with
      | .error e => ⟨.error e, (scrollToEnd B (a.get "selector") w).world,
          (scrollToEnd B (a.get "selector") w).trace⟩
      | .ok _ => ⟨.ok (), B.pause 800 (scrollToEnd B (a.get "selector") w).world,
          (scrollToEnd B (a.get "selector") w).trace ++ [.sleep 800]⟩ := by
  have h := isStr_eq_true.mp ht
  cases hr : (scrollToEnd B (a.get "selector") w).result with
  | error e => simp [execAction, h, hs, JSVal.isStr, bind_eq, Run.bind, hr]
  | ok x => simp [execAction, h, hs, JSVal.isStr, bind_eq, Run.bind, hr, sleep]

theorem scrollRound_value {W : Type} (B : Browser W) (sel : JSVal) (w : W) (el : Nat)
    (hq : B.querySelector w sel = some el) :
    (scrollRound B sel w).1 = true ↔
      (roundAfter B sel w el ≥ roundMaxTop B w el ∨ roundAfter B sel w el = roundBefore B w el) := by
  simp [scrollRound, roundAfter, roundMaxTop, roundBefore, hq]

theorem scrollRound_not_found {W : Type} (B : Browser W) (sel : JSVal) (w : W)
    (hq : B.querySelector w sel = none) : (scrollRound B sel w).1 = true := by
  simp [scrollRound, hq]

theorem scrollRounds_head {W : Type} (B : Browser W) (sel : JSVal) (n : Nat) (w : W) :
    ∃ rest, (scrollRounds B sel (n + 1) w).trace = .call (.evaluateRound sel) :: rest := by
  cases h : (B.invoke (.evaluateRound sel) w).1 with
  | some e => rw [scrollRounds_raise B sel n w e h]; exact ⟨[], rfl⟩
  | none =>
    cases hr : (scrollRound B sel (B.invoke (.evaluateRound sel) w).2).1 with
    | true => rw [scrollRounds_stop B sel n w h hr]; exact ⟨_, rfl⟩
    | false => rw [scrollRounds_continue B sel n w h hr]; exact ⟨_, rfl⟩

/-! ## A well-behaved scroll container -/

theorem stepByOf_ge (clientHeight : Int) : 800 ≤ stepByOf clientHeight := by
  unfold stepByOf; exact le_max_right _ _

theorem stepByOf_eq_floor (clientHeight : Int) :
    stepByOf clientHeight = max ⌊(0.95 : ℚ) * (clientHeight : ℚ)⌋ 800 := by
  have h : (0.95 : ℚ) * (clientHeight : ℚ) = ((clientHeight * 95 : Int) : ℚ) / ((100 : Nat) : ℚ) := by
    push_cast; ring
  rw [h, Rat.floor_intCast_div_natCast]
  rfl

theorem steady_scrollRound {W : Type} (B : Browser W) (sel : JSVal) (c : Nat) (sH cH : Int)
    (hS : Steady B sel c sH cH) (w : W) :
    B.scrollTop (scrollRound B sel w).2 c =
      targetTop (B.scrollTop w c) (stepByOf cH) (maxTopOf sH cH) ∧
    (scrollRound B sel w).1 =
      (decide (targetTop (B.scrollTop w c) (stepByOf cH) (maxTopOf sH cH) ≥ maxTopOf sH cH) ||
        !decide (targetTop (B.scrollTop w c) (stepByOf cH) (maxTopOf sH cH) ≠ B.scrollTop w c)) := by
  obtain ⟨el, hq, hc⟩ := hS.found w
  unfold scrollRound
  rw [hq]
  simp only [hc, hS.height, hS.client, hS.intoView_top, hS.dispatch_top]
  cases B.hasScrollTo w c <;> simp [hS.scrollTo_top, hS.setScrollTop_top]

theorem steady_afterRound {W : Type} (B : Browser W) (sel : JSVal) (c : Nat) (sH cH : Int)
    (hS : Steady B sel c sH cH) (w : W) :
    B.scrollTop (afterRound B sel w) c =
      targetTop (B.scrollTop w c) (stepByOf cH) (maxTopOf sH cH) := by
  unfold afterRound
  rw [hS.invoke_top, hS.invoke_top, hS.pause_top, (steady_scrollRound B sel c sH cH hS _).1,
    hS.invoke_top]

theorem steady_forceBottom {W : Type} (B : Browser W) (sel : JSVal) (c : Nat) (sH cH : Int)
    (hS : Steady B sel c sH cH) (w : W) :
    B.scrollTop (forceBottom B sel w).2 c = maxTopOf sH cH := by
  obtain ⟨el, hq, hc⟩ := hS.found w
  unfold forceBottom
  rw [hq]
  simp only [hc, hS.height, hS.client, hS.dispatch_top]
  cases B.hasScrollTo w c <;> simp [hS.scrollTo_top, hS.setScrollTop_top]

theorem steady_rounds {W : Type} (B : Browser W) (sel : JSVal) (c : Nat) (sH cH : Int)
    (hS : Steady B sel c sH cH) (j : Nat) :
    ∀ (n : Nat) (w : W), j + 1 ≤ n → B.scrollTop w c ≤ maxTopOf sH cH →
      maxTopOf sH cH ≤ B.scrollTop w c + ((j : Int) + 1) * stepByOf cH →
      (j = 0 ∨ B.scrollTop w c + (j : Int) * stepByOf cH < maxTopOf sH cH) →
      (scrollRounds B sel n w).result = .ok () ∧
      B.scrollTop (scrollRounds B sel n w).world c = maxTopOf sH cH ∧
      roundCount (scrollRounds B sel n w).trace = j + 1 := by
  have hst := stepByOf_ge cH
  induction j with
  | zero =>
    intro n w hn hs hm _
    obtain ⟨m, rfl⟩ : ∃ m, n = m + 1 := ⟨n - 1, by omega⟩
    have ht : targetTop (B.scrollTop w c) (stepByOf cH) (maxTopOf sH cH) = maxTopOf sH cH := by
      unfold targetTop; simp at hm; exact min_eq_right hm
    have hv : (scrollRound B sel (B.invoke (.evaluateRound sel) w).2).1 = true := by
      rw [(steady_scrollRound B sel c sH cH hS _).2, hS.invoke_top, ht]
      simp
    rw [scrollRounds_stop B sel m w (hS.rounds_return w) hv]
    refine ⟨rfl, ?_, roundCount_roundEvents sel⟩
    show B.scrollTop (afterRound B sel w) c = _
    rw [steady_afterRound B sel c sH cH hS, ht]
  | succ j ih =>
    intro n w hn hs hm hlt
    obtain ⟨m, rfl⟩ : ∃ m, n = m + 1 := ⟨n - 1, by omega⟩
    have hlt2 : B.scrollTop w c + ((j : Int) + 1) * stepByOf cH < maxTopOf sH cH := by
      rcases hlt with h | h
      · omega
      · push_cast at h; exact h
    have hj : (0 : Int) ≤ (j : Int) * stepByOf cH :=
      mul_nonneg (Int.ofNat_nonneg j) (by omega)
    have hstep : B.scrollTop w c + stepByOf cH < maxTopOf sH cH := by nlinarith
    have ht : targetTop (B.scrollTop w c) (stepByOf cH) (maxTopOf sH cH) =
        B.scrollTop w c + stepByOf cH := by
      unfold targetTop; exact min_eq_left (le_of_lt hstep)
    have hv : (scrollRound B sel (B.invoke (.evaluateRound sel) w).2).1 = false := by
      rw [(steady_scrollRound B sel c sH cH hS _).2, hS.invoke_top, ht]
      simp
      constructor
      · exact hstep
      · omega
    rw [scrollRounds_continue B sel m w (hS.rounds_return w) hv]
    have hnext : B.scrollTop (afterRound B sel w) c = B.scrollTop w c + stepByOf cH := by
      rw [steady_afterRound B sel c sH cH hS, ht]
    have hm2 : maxTopOf sH cH ≤
        B.scrollTop (afterRound B sel w) c + ((j : Int) + 1) * stepByOf cH := by
      rw [hnext]; push_cast at hm; nlinarith
    have hlt3 : j = 0 ∨
        B.scrollTop (afterRound B sel w) c + (j : Int) * stepByOf cH < maxTopOf sH cH := by
      right; rw [hnext]; nlinarith
    obtain ⟨h1, h2, h3⟩ := ih m (afterRound B sel w) (by omega)
      (by rw [hnext]; exact le_of_lt hstep) hm2 hlt3
    refine ⟨h1, h2, ?_⟩
    simp only [roundCount_append, roundCount_roundEvents, h3]
    omega

theorem steady_scrollStart {W : Type} (B : Browser W) (sel : JSVal) (c : Nat) (sH cH : Int)
    (hS : Steady B sel c sH cH) (w : W) :
    B.scrollTop (scrollStart B sel w) c = B.scrollTop w c := by
  unfold scrollStart
  rw [hS.invoke_top, hS.invoke_top, hS.invoke_top]

/-- On a well-behaved container the whole scroll branch makes the rounds of its
loop, completes, and leaves the container where the loop left it when that is
`maxTop`. -/
theorem steady_scrollToEnd {W : Type} (B : Browser W) (sel : JSVal) (c : Nat) (sH cH : Int)
    (hS : Steady B sel c sH cH) (w : W) (k : Nat)
    (hok : (scrollRounds B sel 240 (scrollStart B sel w)).result = .ok ())
    (htop : B.scrollTop (scrollRounds B sel 240 (scrollStart B sel w)).world c = maxTopOf sH cH)
    (hk : roundCount (scrollRounds B sel 240 (scrollStart B sel w)).trace = k) :
    (scrollToEnd B sel w).result = .ok () ∧
    B.scrollTop (scrollToEnd B sel w).world c = maxTopOf sH cH ∧
    roundCount (scrollToEnd B sel w).trace = k := by
  rw [scrollToEnd_eq, hok]
  simp only
  refine ⟨trivial, ?_, ?_⟩
  · rw [attempt_world]
    cases hf : (B.invoke (.evaluateFinal sel)
        (scrollRounds B sel 240 (scrollStart B sel w)).world).1 with
    | some e =>
      have : ((do evaluateFinal B sel; sleep B 200 : Run W Unit)
          (scrollRounds B sel 240 (scrollStart B sel w)).world).world =
          (B.invoke (.evaluateFinal sel)
            (scrollRounds B sel 240 (scrollStart B sel w)).world).2 := by
        simp [bind_eq, Run.bind, evaluateFinal, invoke, hf]
      rw [this, hS.invoke_top, htop]
    | none =>
      have : ((do evaluateFinal B sel; sleep B 200 : Run W Unit)
          (scrollRounds B sel 240 (scrollStart B sel w)).world).world =
          B.pause 200 (forceBottom B sel (B.invoke (.evaluateFinal sel)
            (scrollRounds B sel 240 (scrollStart B sel w)).world).2).2 := by
        simp [bind_eq, Run.bind, evaluateFinal, invoke, hf, inPage, sleep]
      rw [this, hS.pause_top, steady_forceBottom B sel c sH cH hS]
  · simp only [roundCount_append, hk]
    cases (B.invoke (.evaluateFinal sel)
        (scrollRounds B sel 240 (scrollStart B sel w)).world).1 <;>
      simp [roundCount, Event.isRound, List.countP_cons]

/-! ## The claims -/

/-- C1, amended.  On the normal-completion path of `main` (the `try` block
completes), exactly one `Result` is written; its `status_code` is the status
captured by the navigation, its `html` is present, and its `error` is non-null
if and only if the status is null, is `0`, or is at least `400`; equivalently
`error` is null if and only if the status is a non-zero integer below `400`
(negative values included). -/
theorem result_error_iff_status {W : Type} (B : Browser W) (u : String) (hu : u ≠ "")
    (decoded : Option JSVal) (headful : Bool) (w : W)
    (hnormal : (tryBlock B u (decoded.getD (.arr [])) headful w).result = .ok ()) :
    ∃ r, stdoutLines (main B (some u) decoded headful w).trace = [r] ∧
      (navigate B u (B.invoke (.launch (!headful)) w).2).result = .ok r.status_code ∧
      r.html ≠ none ∧
      (r.error ≠ none ↔
        (r.status_code = none ∨ r.status_code = some 0 ∨ ∃ s, r.status_code = some s ∧ 400 ≤ s)) ∧
      (r.error = none ↔ ∃ s, r.status_code = some s ∧ s ≠ 0 ∧ s < 400) := by
  rw [main_eq_guarded B u hu, guarded_of_ok _ _ _ _ _ hnormal]
  obtain ⟨_, pre, status, html, h1, h2, _, h4⟩ := tryBlock_ok _ _ _ _ _ hnormal
  refine ⟨⟨status, httpError status, some html⟩, ?_, h4, by simp, ?_, ?_⟩
  · rw [h1, stdoutLines_append, h2]; rfl
  · exact httpError_isSome_iff status
  · exact httpError_eq_none_iff status

/-- C1, witness: a page answering `404`. -/
theorem result_error_iff_status_witness :
    ∃ r, stdoutLines (main (scripted raisesNothing (some 404)) (some "https://example.com")
        none false ()).trace = [r] ∧
      (navigate (scripted raisesNothing (some 404)) "https://example.com"
        ((scripted raisesNothing (some 404)).invoke (.launch (!false)) ()).2).result
          = .ok r.status_code ∧
      r.html ≠ none ∧
      (r.error ≠ none ↔
        (r.status_code = none ∨ r.status_code = some 0 ∨ ∃ s, r.status_code = some s ∧ 400 ≤ s)) ∧
      (r.error = none ↔ ∃ s, r.status_code = some s ∧ s ≠ 0 ∧ s < 400) :=
  result_error_iff_status (scripted raisesNothing (some 404)) "https://example.com" (by decide)
    none false () rfl

/-- C1 as stated fails: when the response has status `0`, navigation and content
capture succeed, the `Result` carries `status_code = 0`, which is neither null
nor at least `400`, and yet `error` is non-null. -/
theorem status_zero_reported_as_error :
    (tryBlock (scripted raisesNothing (some 0)) "https://example.com" (.arr []) false ()).result
      = .ok () ∧
    ∃ r, stdoutLines (main (scripted raisesNothing (some 0)) (some "https://example.com")
        none false ()).trace = [r] ∧
      r.status_code = some 0 ∧
      ¬ (r.error ≠ none ↔ (r.status_code = none ∨ ∃ s, r.status_code = some s ∧ 400 ≤ s)) := by
  refine ⟨rfl, ⟨some 0, httpError (some 0), some "<html></html>"⟩, rfl, rfl, ?_⟩
  simp [httpError]

/-- C3, amended.  For every run with a URL present, whenever a step of the `try`
block raises an error `e` (browser launch, page creation, navigation, content
capture, or the close of line 139), and the close call made by the `catch`
block does not itself raise (that call is made only when a session had been
created), `main` does not raise and writes exactly one `Result`,
`{status_code: null, error: e.toString(), html: null}`. -/
theorem run_failure_converted {W : Type} (B : Browser W) (u : String) (hu : u ≠ "")
    (decoded : Option JSVal) (headful : Bool) (w : W) (e : JSErr)
    (hraise : (tryBlock B u (decoded.getD (.arr [])) headful w).result = .error e)
    (hclose : (B.invoke (.launch (!headful)) w).1 = none →
      (B.invoke .close (tryBlock B u (decoded.getD (.arr [])) headful w).world).1 = none) :
    (main B (some u) decoded headful w).result = .ok () ∧
    stdoutLines (main B (some u) decoded headful w).trace = [⟨none, some e.text, none⟩] := by
  rw [main_eq_guarded B u hu, guarded_of_error _ _ _ _ _ e hraise]
  cases hl : (B.invoke (.launch (!headful)) w).1 with
  | some e2 =>
    simp [catchBlock_unset, stdoutLines_append, tryBlock_error _ _ _ _ _ e hraise, stdoutLines]
  | none =>
    have hc := hclose hl
    simp [catchBlock_set, hc, stdoutLines_append, tryBlock_error _ _ _ _ _ e hraise, stdoutLines]

/-- C3, witness: navigation times out and the session closes normally. -/
theorem run_failure_converted_witness :
    (main (scripted raisesOnGoto (some 200)) (some "https://example.com") none false ()).result
      = .ok () ∧
    stdoutLines (main (scripted raisesOnGoto (some 200)) (some "https://example.com")
        none false ()).trace
      = [⟨none, some "TimeoutError: Navigation timeout of 30000 ms exceeded", none⟩] :=
  run_failure_converted (scripted raisesOnGoto (some 200)) "https://example.com" (by decide)
    none false () ⟨"TimeoutError: Navigation timeout of 30000 ms exceeded"⟩ rfl (fun _ => rfl)

/-- C3 as stated fails: navigation raises, the `catch` block calls `close`,
`close` raises too, and `main` raises that second error without writing any
`Result`. -/
theorem failing_close_escapes_main :
    (tryBlock (scripted raisesOnGotoAndClose (some 200)) "https://example.com" (.arr []) false
        ()).result = .error ⟨"TimeoutError: Navigation timeout of 30000 ms exceeded"⟩ ∧
    (main (scripted raisesOnGotoAndClose (some 200)) (some "https://example.com") none false
        ()).result = .error ⟨"Error: Protocol error: Connection closed"⟩ ∧
    stdoutLines (main (scripted raisesOnGotoAndClose (some 200)) (some "https://example.com")
        none false ()).trace = [] :=
  ⟨rfl, rfl, rfl⟩

/-- C6, amended.  For every run with a URL present and every session behaviour:
at most one `Result` line is written; when `main` completes, exactly one is
written, it is the last event of the run, and whenever a session was created
`close` has been invoked before it; `main` fails to complete only when a
session was created, a step of the `try` block raised and the close call of the
`catch` block raised as well, and in that case (and whenever that happens) no
`Result` line is written. -/
theorem single_result_line {W : Type} (B : Browser W) (u : String) (hu : u ≠ "")
    (decoded : Option JSVal) (headful : Bool) (w : W) :
    (stdoutLines (main B (some u) decoded headful w).trace).length ≤ 1 ∧
    ((main B (some u) decoded headful w).result = .ok () →
      ∃ pre r, (main B (some u) decoded headful w).trace = pre ++ [.stdout r] ∧
        stdoutLines pre = [] ∧
        ((B.invoke (.launch (!headful)) w).1 = none → .call .close ∈ pre)) ∧
    (∀ e, (main B (some u) decoded headful w).result = .error e →
      stdoutLines (main B (some u) decoded headful w).trace = [] ∧
      (B.invoke (.launch (!headful)) w).1 = none ∧
      (∃ e0, (tryBlock B u (decoded.getD (.arr [])) headful w).result = .error e0) ∧
      (B.invoke .close (tryBlock B u (decoded.getD (.arr [])) headful w).world).1 = some e) ∧
    (∀ e0 e, (tryBlock B u (decoded.getD (.arr [])) headful w).result = .error e0 →
      (B.invoke (.launch (!headful)) w).1 = none →
      (B.invoke .close (tryBlock B u (decoded.getD (.arr [])) headful w).world).1 = some e →
      (main B (some u) decoded headful w).result = .error e ∧
      stdoutLines (main B (some u) decoded headful w).trace = []) := by
  rw [main_eq_guarded B u hu]
  cases ht : (tryBlock B u (decoded.getD (.arr [])) headful w).result with
  | ok x =>
    cases x
    obtain ⟨hl, pre, status, html, h1, h2, h3, _⟩ := tryBlock_ok _ _ _ _ _ ht
    rw [guarded_of_ok _ _ _ _ _ ht]
    refine ⟨?_, ?_, ?_, ?_⟩
    · rw [h1, stdoutLines_append, h2]; simp [stdoutLines]
    · intro _; exact ⟨pre, _, h1, h2, fun _ => h3⟩
    · intro e he; rw [ht] at he; simp at he
    · intro e0 e he0; simp at he0
  | error e0 =>
    have hs := tryBlock_error _ _ _ _ _ e0 ht
    rw [guarded_of_error _ _ _ _ _ e0 ht]
    cases hl : (B.invoke (.launch (!headful)) w).1 with
    | some e2 =>
      simp only [Option.isNone_some, catchBlock_unset]
      refine ⟨?_, ?_, ?_, ?_⟩
      · simp [stdoutLines_append, hs, stdoutLines]
      · intro _
        exact ⟨(tryBlock B u (decoded.getD (.arr [])) headful w).trace, _, rfl, hs,
          fun h => by simp at h⟩
      · intro e he; simp at he
      · intro e0 e _ h; simp at h
    | none =>
      simp only [Option.isNone_none, catchBlock_set]
      cases hc : (B.invoke .close (tryBlock B u (decoded.getD (.arr [])) headful w).world).1 with
      | none =>
        refine ⟨?_, ?_, ?_, ?_⟩
        · simp [stdoutLines_append, hs, stdoutLines]
        · intro _
          refine ⟨(tryBlock B u (decoded.getD (.arr [])) headful w).trace ++ [.call .close],
            ⟨none, some e0.text, none⟩, by simp, ?_, fun _ => by simp⟩
          simp [stdoutLines_append, hs, stdoutLines]
        · intro e he; simp at he
        · intro e0 e _ _ h; simp at h
      | some e2 =>
        refine ⟨?_, ?_, ?_, ?_⟩
        · simp [stdoutLines_append, hs, stdoutLines]
        · intro he; simp at he
        · intro e he
          simp only [Except.error.injEq] at he
          refine ⟨by simp [stdoutLines_append, hs, stdoutLines], trivial, ⟨e0, rfl⟩, ?_⟩
          rw [he]
        · intro e1 e _ _ h
          simp only [Option.some.injEq] at h
          refine ⟨by simp [h], by simp [stdoutLines_append, hs, stdoutLines]⟩

/-- C6, witness: a run in which nothing raises writes its single `Result` line
last, after `close`. -/
theorem single_result_line_witness :
    ∃ pre r, (main (scripted raisesNothing (some 200)) (some "https://example.com") none false
        ()).trace = pre ++ [.stdout r] ∧
      stdoutLines pre = [] ∧
      (((scripted raisesNothing (some 200)).invoke (.launch (!false)) ()).1 = none →
        .call .close ∈ pre) :=
  (single_result_line (scripted raisesNothing (some 200)) "https://example.com" (by decide)
    none false ()).2.1 rfl

/-- C6 as stated fails: the content is captured, the close of line 139 raises,
the `catch` block calls `close` again, which raises again, and the run ends
with no `Result` line at all. -/
theorem no_result_line_when_close_raises :
    sessionCalls (main (scripted raisesOnClose (some 200)) (some "https://example.com") none
        false ()).trace
      = [.launch true, .newPage, .goto "https://example.com", .content, .close, .close] ∧
    stdoutLines (main (scripted raisesOnClose (some 200)) (some "https://example.com") none
        false ()).trace = [] ∧
    (stdoutLines (main (scripted raisesOnClose (some 200)) (some "https://example.com") none
        false ()).trace).length ≠ 1 :=
  ⟨rfl, rfl, by decide⟩

/-- C2.  For every list of entries and every browser (any call may raise): the
action loop raises nothing, the loop body is entered for every entry of the
list exactly once and in list order (each entry completes without raising,
whatever failed inside it, and the rest of the list then runs in the world it
left), and the run goes on to the content capture: in the rest of the `try` block the events of the action phase are
followed by the call `page.content()`. -/
theorem action_loop_isolation {W : Type} (B : Browser W) (xs : List JSVal)
    (status : Option Int) (w : W) :
    (runActions B xs w).result = .ok () ∧
    entered (runActions B xs w).trace = xs ∧
    (∀ a rest, (runAction B a w).result = .ok () ∧
      (runActions B (a :: rest) w).trace =
        (runAction B a w).trace ++ (runActions B rest (runAction B a w).world).trace) ∧
    (actionPhase B (.arr xs) w).result = .ok () ∧
    entered (actionPhase B (.arr xs) w).trace = xs ∧
    ∃ rest, (finish B status (.arr xs) w).trace =
      (actionPhase B (.arr xs) w).trace ++ .call .content :: rest := by
  refine ⟨runActions_result B xs w, runActions_entered B xs w, ?_, actionPhase_result B _ w,
    actionPhase_entered B xs w, ?_⟩
  · intro a rest
    refine ⟨runAction_result B a w, ?_⟩
    show (Run.bind (runAction B a) (fun _ => runActions B rest) w).trace = _
    rw [bind_ok _ _ w () (runAction_result B a w)]
  rw [finish_eq]
  cases h1 : (B.invoke .content (actionPhase B (.arr xs) w).world).1 with
  | some e => exact ⟨[], rfl⟩
  | none =>
    cases h2 : (B.invoke .close (B.invoke .content (actionPhase B (.arr xs) w).world).2).1 with
    | some e => exact ⟨[.call .close], rfl⟩
    | none => exact ⟨_, rfl⟩

/-- C7.  For every wait action: executing it raises nothing, makes no session
call, and requests exactly one pause, of `milliseconds` when that field is a
finite number and of `1000` in every other case (field absent, `NaN`, an
infinity, or a value that is not a number). -/
theorem wait_action_pause {W : Type} (B : Browser W) (a : JSVal) (w : W)
    (ht : (actionType a).isStr "wait" = true) :
    (execAction B a (actionType a) w).result = .ok () ∧
    sessionCalls (execAction B a (actionType a) w).trace = [] ∧
    (∀ q, a.get "milliseconds" = .num (.fin q) →
      (execAction B a (actionType a) w).trace = [.sleep q]) ∧
    ((∀ q, a.get "milliseconds" ≠ .num (.fin q)) →
      (execAction B a (actionType a) w).trace = [.sleep 1000]) := by
  have h := isStr_eq_true.mp ht
  have he : execAction B a (actionType a) w = sleep B (waitMs a) w := by
    simp [execAction, h, JSVal.isStr]
  rw [he]
  refine ⟨rfl, rfl, ?_, ?_⟩
  · intro q hq
    simp [sleep, waitMs, hq]
  · intro hq
    have : waitMs a = 1000 := by
      unfold waitMs
      split
      · next q hq2 => exact absurd hq2 (hq q)
      · rfl
    simp [sleep, this]

/-- C7, witness: a wait action whose `milliseconds` is the string `"250"`. -/
theorem wait_action_pause_witness :
    (execAction (scripted raisesNothing (some 200))
        (.obj [("type", .str "wait"), ("milliseconds", .str "250")])
        (actionType (.obj [("type", .str "wait"), ("milliseconds", .str "250")])) ()).trace
      = [.sleep 1000] :=
  (wait_action_pause (scripted raisesNothing (some 200))
    (.obj [("type", .str "wait"), ("milliseconds", .str "250")]) () rfl).2.2.2
    (fun q h => by simp [JSVal.get, lookupField] at h)

/-- C8.  For every entry whose type is none of `click`, `scroll`, `wait`,
`write`, `press`, `executeJavascript` (a missing type, a `null` entry and an
entry that is not an object included), and for every click action whose
selector is absent or empty: executing it raises nothing, leaves the world as
it is, and emits nothing, so no session call and no pause. -/
theorem noop_actions {W : Type} (B : Browser W) (a : JSVal) (w : W)
    (h : (∀ lit ∈ ["click", "scroll", "wait", "write", "press", "executeJavascript"],
            (actionType a).isStr lit = false) ∨
         ((actionType a).isStr "click" = true ∧ (a.get "selector").truthy = false)) :
    (execAction B a (actionType a) w).result = .ok () ∧
    (execAction B a (actionType a) w).world = w ∧
    (execAction B a (actionType a) w).trace = [] ∧
    (runAction B a w).result = .ok () ∧
    (runAction B a w).trace = [.enter a] := by
  have key : execAction B a (actionType a) w = ⟨.ok (), w, []⟩ := by
    rcases h with h | ⟨h1, h2⟩
    · have c1 := h "click" (by simp)
      have c2 := h "scroll" (by simp)
      have c3 := h "wait" (by simp)
      have c4 := h "write" (by simp)
      have c5 := h "press" (by simp)
      have c6 := h "executeJavascript" (by simp)
      simp [execAction, c1, c2, c3, c4, c5, c6, Run.pure]
    · have ht := isStr_eq_true.mp h1
      simp [execAction, ht, h2, JSVal.isStr, Run.pure]
  refine ⟨by rw [key], by rw [key], by rw [key], runAction_result B a w, ?_⟩
  unfold runAction
  rw [bind_eq, bind_ok _ _ w () rfl, attempt_trace]
  simp only [emit]
  rw [key]
  rfl

/-- C8, witness: a `null` entry, and a click action with an empty selector. -/
theorem noop_actions_witness :
    (execAction (scripted raisesNothing (some 200)) .null (actionType .null) ()).trace = [] ∧
    (execAction (scripted raisesNothing (some 200))
        (.obj [("type", .str "click"), ("selector", .str "")])
        (actionType (.obj [("type", .str "click"), ("selector", .str "")])) ()).trace = [] :=
  ⟨(noop_actions (scripted raisesNothing (some 200)) .null ()
      (Or.inl (by simp [actionType, JSVal.truthy, JSVal.isStr]))).2.2.1,
   (noop_actions (scripted raisesNothing (some 200))
      (.obj [("type", .str "click"), ("selector", .str "")]) ()
      (Or.inr ⟨rfl, rfl⟩)).2.2.1⟩

/-- C9.  For every scroll action whose selector is absent or empty (falsy):
executing it raises nothing and emits exactly two events, the pause of `200`
and then the pause of `800`; it makes no session call. -/
theorem scroll_without_selector {W : Type} (B : Browser W) (a : JSVal) (w : W)
    (ht : (actionType a).isStr "scroll" = true) (hs : (a.get "selector").truthy = false) :
    (execAction B a (actionType a) w).result = .ok () ∧
    (execAction B a (actionType a) w).trace = [.sleep 200, .sleep 800] ∧
    sessionCalls (execAction B a (actionType a) w).trace = [] ∧
    (execAction B a (actionType a) w).world = B.pause 800 (B.pause 200 w) := by
  have h := isStr_eq_true.mp ht
  have key : execAction B a (actionType a) w =
      ⟨.ok (), B.pause 800 (B.pause 200 w), [.sleep 200, .sleep 800]⟩ := by
    simp [execAction, h, hs, JSVal.isStr, bind_eq, Run.bind, sleep]
  rw [key]
  exact ⟨rfl, rfl, rfl, rfl⟩

/-- C9, witness: a scroll action without a selector. -/
theorem scroll_without_selector_witness :
    (execAction (scripted raisesNothing (some 200)) (.obj [("type", .str "scroll")])
        (actionType (.obj [("type", .str "scroll")])) ()).trace = [.sleep 200, .sleep 800] :=
  (scroll_without_selector (scripted raisesNothing (some 200)) (.obj [("type", .str "scroll")])
    () rfl rfl).2.1

/-- C4, amended.  For every scroll action with a selector present and every
browser: at most 240 round evaluations are started and at most one final
forced-scroll evaluation is attempted.  When no round evaluation raises (in
particular when none can), the action completes and the final evaluation is
attempted exactly once, after all the rounds, whether the loop ended early or
after 240 rounds.  When a round evaluation raises, the action raises that
error, it is abandoned at that evaluation (the last event) and the final
evaluation is not attempted; when it is the first round that raises, the
action consists of `waitForSelector`, `hover`, `focus` and that evaluation. -/
theorem scroll_rounds_then_final {W : Type} (B : Browser W) (a : JSVal) (w : W)
    (ht : (actionType a).isStr "scroll" = true) (hs : (a.get "selector").truthy = true) :
    roundCount (execAction B a (actionType a) w).trace ≤ 240 ∧
    finalCount (execAction B a (actionType a) w).trace ≤ 1 ∧
    ((execAction B a (actionType a) w).result = .ok () →
      ∃ pre post, (execAction B a (actionType a) w).trace =
          pre ++ .call (.evaluateFinal (a.get "selector")) :: post ∧
        roundCount pre ≤ 240 ∧ finalCount pre = 0 ∧ roundCount post = 0 ∧ finalCount post = 0) ∧
    (∀ e, (execAction B a (actionType a) w).result = .error e →
      finalCount (execAction B a (actionType a) w).trace = 0 ∧
      ∃ pre, (execAction B a (actionType a) w).trace =
        pre ++ [.call (.evaluateRound (a.get "selector"))]) ∧
    ((∀ w1, (B.invoke (.evaluateRound (a.get "selector")) w1).1 = none) →
      (execAction B a (actionType a) w).result = .ok ()) ∧
    (raisingRound B (a.get "selector") 240 (scrollStart B (a.get "selector") w) = none →
      (execAction B a (actionType a) w).result = .ok () ∧
      finalCount (execAction B a (actionType a) w).trace = 1) ∧
    (∀ e, raisingRound B (a.get "selector") 240 (scrollStart B (a.get "selector") w) = some e →
      (execAction B a (actionType a) w).result = .error e ∧
      finalCount (execAction B a (actionType a) w).trace = 0 ∧
      ∃ pre, (execAction B a (actionType a) w).trace =
        pre ++ [.call (.evaluateRound (a.get "selector"))]) ∧
    (∀ e, (B.invoke (.evaluateRound (a.get "selector"))
        (scrollStart B (a.get "selector") w)).1 = some e →
      (execAction B a (actionType a) w).result = .error e ∧
      (execAction B a (actionType a) w).trace =
        [.call (.waitForSelector (a.get "selector")), .call (.hover (a.get "selector")),
         .call (.focus (a.get "selector")), .call (.evaluateRound (a.get "selector"))]) := by
  rw [execAction_scroll B a w ht hs, scrollToEnd_eq B (a.get "selector") w]
  have hfirst : ∀ e, (B.invoke (.evaluateRound (a.get "selector"))
      (scrollStart B (a.get "selector") w)).1 = some e →
      scrollRounds B (a.get "selector") 240 (scrollStart B (a.get "selector") w) =
        ⟨.error e, (B.invoke (.evaluateRound (a.get "selector"))
          (scrollStart B (a.get "selector") w)).2, [.call (.evaluateRound (a.get "selector"))]⟩ :=
    fun e he => scrollRounds_raise B _ 239 _ e he
  have hrr := scrollRounds_result_of_raising B (a.get "selector") 240
    (scrollStart B (a.get "selector") w)
  have hc := scrollRounds_counts B (a.get "selector") 240 (scrollStart B (a.get "selector") w)
  have hlast := scrollRounds_error_last B (a.get "selector") 240
    (scrollStart B (a.get "selector") w)
  have hret := scrollRounds_ok_of_rounds_return B (a.get "selector")
  generalize scrollStart B (a.get "selector") w = w0 at hfirst hrr hc hlast ⊢
  cases hR : (scrollRounds B (a.get "selector") 240 w0).result with
  | error e =>
    simp only
    have hfc : finalCount ([Event.call (.waitForSelector (a.get "selector")),
        .call (.hover (a.get "selector")), .call (.focus (a.get "selector"))] ++
        (scrollRounds B (a.get "selector") 240 w0).trace) = 0 := by
      simp only [finalCount_append, hc.2]
      simp [finalCount, Event.isFinal]
    have hpre : ∃ pre, [Event.call (.waitForSelector (a.get "selector")),
        .call (.hover (a.get "selector")), .call (.focus (a.get "selector"))] ++
        (scrollRounds B (a.get "selector") 240 w0).trace =
        pre ++ [.call (.evaluateRound (a.get "selector"))] := by
      obtain ⟨pre, hpre⟩ := hlast e hR
      exact ⟨[.call (.waitForSelector (a.get "selector")), .call (.hover (a.get "selector")),
        .call (.focus (a.get "selector"))] ++ pre, by simp [hpre]⟩
    refine ⟨?_, ?_, ?_, ?_, ?_, ?_, ?_, ?_⟩
    · simp only [roundCount_append]
      simp [roundCount, Event.isRound]
      exact hc.1
    · rw [hfc]; exact Nat.zero_le 1
    · intro h; simp at h
    · intro e2 _
      exact ⟨hfc, hpre⟩
    · intro hnone
      rw [hret hnone] at hR
      simp at hR
    · intro hnone
      rw [hR, hnone] at hrr
      simp at hrr
    · intro e2 hsome
      rw [hR, hsome] at hrr
      simp only [Except.error.injEq] at hrr
      exact ⟨by rw [hrr], hfc, hpre⟩
    · intro e2 he2
      have h2 := hfirst e2 he2
      rw [h2] at hR
      simp only [Except.error.injEq] at hR
      rw [h2]
      exact ⟨by rw [hR], rfl⟩
  | ok x =>
    simp only
    have hpost : ∀ post : List Event,
        post = (match (B.invoke (.evaluateFinal (a.get "selector"))
            (scrollRounds B (a.get "selector") 240 w0).world).1 with
          | none => [.sleep 200]
          | some _ => []) ++ [Event.sleep 800] →
        roundCount post = 0 ∧ finalCount post = 0 := by
      intro post hp
      rw [hp]
      cases (B.invoke (.evaluateFinal (a.get "selector"))
        (scrollRounds B (a.get "selector") 240 w0).world).1 <;>
        simp [roundCount, finalCount, Event.isRound, Event.isFinal]
    have hp := hpost _ rfl
    have hpre : roundCount ([.call (.waitForSelector (a.get "selector")),
          .call (.hover (a.get "selector")), .call (.focus (a.get "selector"))] ++
          (scrollRounds B (a.get "selector") 240 w0).trace) ≤ 240 ∧
        finalCount ([.call (.waitForSelector (a.get "selector")),
          .call (.hover (a.get "selector")), .call (.focus (a.get "selector"))] ++
          (scrollRounds B (a.get "selector") 240 w0).trace) = 0 := by
      simp only [roundCount_append, finalCount_append, hc.2]
      refine ⟨?_, ?_⟩
      · simp [roundCount, Event.isRound]; exact hc.1
      · simp [finalCount, Event.isFinal]
    have hshape : ([.call (.waitForSelector (a.get "selector")),
          .call (.hover (a.get "selector")), .call (.focus (a.get "selector"))] ++
          (scrollRounds B (a.get "selector") 240 w0).trace ++
          Event.call (.evaluateFinal (a.get "selector")) ::
            (match (B.invoke (.evaluateFinal (a.get "selector"))
              (scrollRounds B (a.get "selector") 240 w0).world).1 with
            | none => [.sleep 200]
            | some _ => [])) ++ [Event.sleep 800] =
        ([.call (.waitForSelector (a.get "selector")),
          .call (.hover (a.get "selector")), .call (.focus (a.get "selector"))] ++
          (scrollRounds B (a.get "selector") 240 w0).trace) ++
          Event.call (.evaluateFinal (a.get "selector")) ::
            ((match (B.invoke (.evaluateFinal (a.get "selector"))
              (scrollRounds B (a.get "selector") 240 w0).world).1 with
            | none => [.sleep 200]
            | some _ => []) ++ [Event.sleep 800]) := by
      simp
    have hcons : ∀ (pre post : List Event) (sel : JSVal),
        roundCount (pre ++ Event.call (.evaluateFinal sel) :: post) =
          roundCount pre + roundCount post ∧
        finalCount (pre ++ Event.call (.evaluateFinal sel) :: post) =
          finalCount pre + 1 + finalCount post := by
      intro pre post sel
      simp [roundCount, finalCount, Event.isRound, Event.isFinal, List.countP_cons]
      omega
    rw [hshape]
    have hfc1 := (hcons ([.call (.waitForSelector (a.get "selector")),
          .call (.hover (a.get "selector")), .call (.focus (a.get "selector"))] ++
          (scrollRounds B (a.get "selector") 240 w0).trace)
          ((match (B.invoke (.evaluateFinal (a.get "selector"))
              (scrollRounds B (a.get "selector") 240 w0).world).1 with
            | none => [.sleep 200]
            | some _ => []) ++ [Event.sleep 800]) (a.get "selector")).2
    rw [hp.2, hpre.2] at hfc1
    refine ⟨?_, ?_, ?_, ?_, ?_, ?_, ?_, ?_⟩
    · rw [(hcons _ _ _).1, hp.1]; exact hpre.1
    · rw [hfc1]
    · intro _
      exact ⟨_, _, rfl, hpre.1, hpre.2, hp.1, hp.2⟩
    · intro e he; simp at he
    · intro _; trivial
    · intro _; exact ⟨trivial, hfc1⟩
    · intro e hsome
      rw [hR, hsome] at hrr
      simp at hrr
    · intro e he
      rw [hfirst e he] at hR
      simp at hR

/-- C4, witness.  When nothing raises (no element matches the selector, so the
first round reports the end), the action completes and the final evaluation is
attempted exactly once.  When the first round evaluation raises, the action
raises that error after `waitForSelector`, `hover`, `focus` and the round
evaluation, and the final evaluation is not attempted. -/
theorem scroll_rounds_then_final_witness :
    ((execAction (scripted raisesNothing (some 200)) scrollAction
        (actionType scrollAction) ()).result = .ok () ∧
      finalCount (execAction (scripted raisesNothing (some 200)) scrollAction
        (actionType scrollAction) ()).trace = 1) ∧
    ((execAction (scripted raisesOnRound (some 200)) scrollAction
        (actionType scrollAction) ()).result
        = .error ⟨"Error: Execution context was destroyed"⟩ ∧
      finalCount (execAction (scripted raisesOnRound (some 200)) scrollAction
        (actionType scrollAction) ()).trace = 0 ∧
      ∃ pre, (execAction (scripted raisesOnRound (some 200)) scrollAction
        (actionType scrollAction) ()).trace =
        pre ++ [.call (.evaluateRound (scrollAction.get "selector"))]) :=
  ⟨(scroll_rounds_then_final (scripted raisesNothing (some 200)) scrollAction () rfl rfl).2.2.2.2.2.1
     rfl,
   (scroll_rounds_then_final (scripted raisesOnRound (some 200)) scrollAction () rfl rfl).2.2.2.2.2.2.1
     ⟨"Error: Execution context was destroyed"⟩ rfl⟩

/-- C4 as stated fails: when the evaluation of the first round raises, the
scroll action is abandoned there and no final forced-scroll evaluation is
attempted. -/
theorem final_scroll_skipped_when_round_raises :
    sessionCalls (execAction (scripted raisesOnRound (some 200)) scrollAction
        (actionType scrollAction) ()).trace
      = [.waitForSelector (.str "#feed"), .hover (.str "#feed"), .focus (.str "#feed"),
         .evaluateRound (.str "#feed")] ∧
    finalCount (execAction (scripted raisesOnRound (some 200)) scrollAction
        (actionType scrollAction) ()).trace = 0 :=
  ⟨rfl, rfl⟩

/-- C5.  Take a scroll round whose evaluation returns, with `n + 1` rounds still
allowed; the callback runs in the world left by the call.  Its value is true
exactly when the element is not found, or `after >= maxTop`, or
`after = before`.  Each of the three conditions alone ends the loop with that
round.  When `after < maxTop` and `after != before`, the loop goes on with the
`n` rounds left, and when `n > 0` the evaluation of the next round is
started. -/
theorem round_termination_signal {W : Type} (B : Browser W) (sel : JSVal) (w : W) (n : Nat)
    (hret : (B.invoke (.evaluateRound sel) w).1 = none) :
    ((scrollRound B sel (B.invoke (.evaluateRound sel) w).2).1 = true ↔
      (B.querySelector (B.invoke (.evaluateRound sel) w).2 sel = none ∨
       ∃ el, B.querySelector (B.invoke (.evaluateRound sel) w).2 sel = some el ∧
        (roundAfter B sel (B.invoke (.evaluateRound sel) w).2 el
            ≥ roundMaxTop B (B.invoke (.evaluateRound sel) w).2 el ∨
         roundAfter B sel (B.invoke (.evaluateRound sel) w).2 el
            = roundBefore B (B.invoke (.evaluateRound sel) w).2 el))) ∧
    (B.querySelector (B.invoke (.evaluateRound sel) w).2 sel = none →
      scrollRounds B sel (n + 1) w = ⟨.ok (), afterRound B sel w, roundEvents sel⟩) ∧
    (∀ el, B.querySelector (B.invoke (.evaluateRound sel) w).2 sel = some el →
      roundAfter B sel (B.invoke (.evaluateRound sel) w).2 el
        ≥ roundMaxTop B (B.invoke (.evaluateRound sel) w).2 el →
      scrollRounds B sel (n + 1) w = ⟨.ok (), afterRound B sel w, roundEvents sel⟩) ∧
    (∀ el, B.querySelector (B.invoke (.evaluateRound sel) w).2 sel = some el →
      roundAfter B sel (B.invoke (.evaluateRound sel) w).2 el
        = roundBefore B (B.invoke (.evaluateRound sel) w).2 el →
      scrollRounds B sel (n + 1) w = ⟨.ok (), afterRound B sel w, roundEvents sel⟩) ∧
    (∀ el, B.querySelector (B.invoke (.evaluateRound sel) w).2 sel = some el →
      roundAfter B sel (B.invoke (.evaluateRound sel) w).2 el
        < roundMaxTop B (B.invoke (.evaluateRound sel) w).2 el →
      roundAfter B sel (B.invoke (.evaluateRound sel) w).2 el
        ≠ roundBefore B (B.invoke (.evaluateRound sel) w).2 el →
      (scrollRounds B sel (n + 1) w).result = (scrollRounds B sel n (afterRound B sel w)).result ∧
      (scrollRounds B sel (n + 1) w).trace =
        roundEvents sel ++ (scrollRounds B sel n (afterRound B sel w)).trace ∧
      (0 < n → ∃ rest, (scrollRounds B sel (n + 1) w).trace =
        roundEvents sel ++ .call (.evaluateRound sel) :: rest)) := by
  refine ⟨?_, ?_, ?_, ?_, ?_⟩
  · cases hq : B.querySelector (B.invoke (.evaluateRound sel) w).2 sel with
    | none => simp [scrollRound_not_found B sel _ hq]
    | some el => simp [scrollRound_value B sel _ el hq]
  · intro hq
    exact scrollRounds_stop B sel n w hret (scrollRound_not_found B sel _ hq)
  · intro el hq h
    exact scrollRounds_stop B sel n w hret ((scrollRound_value B sel _ el hq).mpr (Or.inl h))
  · intro el hq h
    exact scrollRounds_stop B sel n w hret ((scrollRound_value B sel _ el hq).mpr (Or.inr h))
  · intro el hq h1 h2
    have hv : (scrollRound B sel (B.invoke (.evaluateRound sel) w).2).1 = false := by
      cases hb : (scrollRound B sel (B.invoke (.evaluateRound sel) w).2).1 with
      | false => rfl
      | true =>
        rcases (scrollRound_value B sel _ el hq).mp hb with h | h
        · exact absurd h (not_le.mpr h1)
        · exact absurd h h2
    rw [scrollRounds_continue B sel n w hret hv]
    refine ⟨rfl, rfl, ?_⟩
    intro hn
    obtain ⟨m, rfl⟩ : ∃ m, n = m + 1 := ⟨n - 1, by omega⟩
    obtain ⟨rest, hrest⟩ := scrollRounds_head B sel m (afterRound B sel w)
    exact ⟨rest, by simp only [hrest]⟩

/-- C5, witness: a container of height 600 with 3000 of content, at the top.
The round moves it to 800, short of `maxTop = 2400`, and the loop goes on. -/
theorem round_termination_signal_witness :
    (scrollRounds (steadyPage 3000 600 true) (.str "#feed") (239 + 1) 0).trace =
      roundEvents (.str "#feed") ++
        (scrollRounds (steadyPage 3000 600 true) (.str "#feed") 239
          (afterRound (steadyPage 3000 600 true) (.str "#feed") 0)).trace :=
  ((round_termination_signal (steadyPage 3000 600 true) (.str "#feed") 0 239 rfl).2.2.2.2
    1 rfl (by decide) (by decide)).2.1

/-- C10.  Take a well-behaved scroll container: the selector always resolves to
it, its integer `scrollHeight` and `clientHeight` are fixed, each scroll request
leaves its `scrollTop` at exactly the requested top and nothing else changes
it.  Let `maxTop = max(0, scrollHeight - clientHeight)` and
`step = max(floor(0.95 * clientHeight), 800)`, and start from a `scrollTop` at
most `maxTop`.  Then `step >= 800`; from every position `before <= maxTop` the
position after the round is `min(before + step, maxTop)`, which lies in
`[before, maxTop]`, so `scrollTop` never decreases, and a round that does not
reach `maxTop` advances by exactly `step`; and when
`rounds = max(1, ceil((maxTop - s0) / step))` is at most 240, which it is
whenever `maxTop - s0 <= 192000`, the loop of the scroll branch completes
after exactly `rounds` round evaluations with `scrollTop = maxTop`. -/
theorem steady_scroll_progress {W : Type} (B : Browser W) (sel : JSVal) (c : Nat)
    (scrollHeight clientHeight : Int) (hS : Steady B sel c scrollHeight clientHeight)
    (maxTop step : Int)
    (hmax : maxTop = max 0 (scrollHeight - clientHeight))
    (hstep : step = max ⌊(0.95 : ℚ) * (clientHeight : ℚ)⌋ 800)
    (w : W) (hs0 : B.scrollTop w c ≤ maxTop) (rounds : Int)
    (hrounds : rounds = max 1 ⌈((maxTop - B.scrollTop w c : Int) : ℚ) / (step : ℚ)⌉) :
    800 ≤ step ∧
    (∀ w1, B.scrollTop w1 c ≤ maxTop →
      B.scrollTop (scrollRound B sel w1).2 c = min (B.scrollTop w1 c + step) maxTop ∧
      B.scrollTop (afterRound B sel w1) c = min (B.scrollTop w1 c + step) maxTop ∧
      B.scrollTop w1 c ≤ B.scrollTop (afterRound B sel w1) c ∧
      B.scrollTop (afterRound B sel w1) c ≤ maxTop ∧
      (B.scrollTop (afterRound B sel w1) c < maxTop →
        B.scrollTop (afterRound B sel w1) c = B.scrollTop w1 c + step)) ∧
    (rounds ≤ 240 →
      (scrollRounds B sel 240 w).result = .ok () ∧
      B.scrollTop (scrollRounds B sel 240 w).world c = maxTop ∧
      ((roundCount (scrollRounds B sel 240 w).trace : Nat) : Int) = rounds ∧
      (scrollToEnd B sel w).result = .ok () ∧
      B.scrollTop (scrollToEnd B sel w).world c = maxTop ∧
      ((roundCount (scrollToEnd B sel w).trace : Nat) : Int) = rounds) ∧
    (maxTop - B.scrollTop w c ≤ 192000 → rounds ≤ 240) := by
  have hM : maxTop = maxTopOf scrollHeight clientHeight := by rw [hmax]; rfl
  have hst' : step = stepByOf clientHeight := by rw [hstep, stepByOf_eq_floor]
  have hst : 800 ≤ step := by rw [hst']; exact stepByOf_ge clientHeight
  have hstq : (0 : ℚ) < (step : ℚ) := by
    have : (0 : Int) < step := by omega
    exact_mod_cast this
  have hk1 : 1 ≤ rounds := by rw [hrounds]; exact le_max_left _ _
  have hck : ⌈((maxTop - B.scrollTop w c : Int) : ℚ) / (step : ℚ)⌉ ≤ rounds := by
    rw [hrounds]; exact le_max_right _ _
  refine ⟨hst, ?_, ?_, ?_⟩
  · intro w1 hw1
    have h1 := (steady_scrollRound B sel c scrollHeight clientHeight hS w1).1
    have h2 := steady_afterRound B sel c scrollHeight clientHeight hS w1
    rw [← hM, ← hst'] at h1 h2
    unfold targetTop at h1 h2
    refine ⟨h1, h2, ?_, ?_, ?_⟩
    · rw [h2]; exact le_min (by omega) hw1
    · rw [h2]; exact min_le_right _ _
    · intro h
      rw [h2] at h ⊢
      rcases min_choice (B.scrollTop w1 c + step) maxTop with h3 | h3
      · exact h3
      · rw [h3] at h; exact absurd h (lt_irrefl _)
  · intro hk
    have hupper : maxTop - B.scrollTop w c ≤ rounds * step := by
      have h1 := Int.ceil_le.mp hck
      rw [div_le_iff₀ hstq] at h1
      exact_mod_cast h1
    have hlower : rounds = 1 ∨ (rounds - 1) * step < maxTop - B.scrollTop w c := by
      by_cases h1 : rounds = 1
      · exact Or.inl h1
      · right
        have hkc : rounds = ⌈((maxTop - B.scrollTop w c : Int) : ℚ) / (step : ℚ)⌉ := by
          rcases max_choice (1 : Int)
            ⌈((maxTop - B.scrollTop w c : Int) : ℚ) / (step : ℚ)⌉ with h2 | h2
          · rw [← hrounds] at h2; exact absurd h2 h1
          · rw [← hrounds] at h2; exact h2
        have h3 : rounds - 1 < ⌈((maxTop - B.scrollTop w c : Int) : ℚ) / (step : ℚ)⌉ := by
          omega
        have h4 := Int.lt_ceil.mp h3
        rw [lt_div_iff₀ hstq] at h4
        exact_mod_cast h4
    obtain ⟨j, hj⟩ : ∃ j : Nat, rounds = (j : Int) + 1 := ⟨(rounds - 1).toNat, by omega⟩
    have hprem1 : ∀ s : Int, s = B.scrollTop w c →
        maxTopOf scrollHeight clientHeight ≤ s + ((j : Int) + 1) * stepByOf clientHeight := by
      intro s hs
      rw [← hM, ← hst', hs]; rw [hj] at hupper; linarith
    have hprem2 : ∀ s : Int, s = B.scrollTop w c →
        (j = 0 ∨ s + (j : Int) * stepByOf clientHeight < maxTopOf scrollHeight clientHeight) := by
      intro s hs
      rw [← hM, ← hst', hs]
      rcases hlower with h | h
      · left; omega
      · right; rw [hj] at h; simp at h; linarith
    have hres := steady_rounds B sel c scrollHeight clientHeight hS j 240 w (by omega)
      (by rw [← hM]; exact hs0) (hprem1 _ rfl) (hprem2 _ rfl)
    have hstart := steady_scrollStart B sel c scrollHeight clientHeight hS w
    have hres2 := steady_rounds B sel c scrollHeight clientHeight hS j 240 (scrollStart B sel w)
      (by omega) (by rw [hstart, ← hM]; exact hs0) (hprem1 _ hstart) (hprem2 _ hstart)
    have hend := steady_scrollToEnd B sel c scrollHeight clientHeight hS w (j + 1)
      hres2.1 hres2.2.1 hres2.2.2
    refine ⟨hres.1, by rw [hres.2.1, hM], ?_, hend.1, by rw [hend.2.1, hM], ?_⟩
    · rw [hres.2.2, hj]; push_cast; ring
    · rw [hend.2.2, hj]; push_cast; ring
  · intro hd
    rw [hrounds]
    apply max_le (by norm_num)
    apply Int.ceil_le.mpr
    rw [div_le_iff₀ hstq]
    have : maxTop - B.scrollTop w c ≤ 240 * step := by omega
    exact_mod_cast this

/-- C10, witness: a container of height 2000 with 10000 of content, at the top.
Here `maxTop = 8000`, `step = floor(0.95 * 2000) = 1900`, and the scroll branch
reaches `8000` after `ceil(8000 / 1900) = 5` rounds (1900, 3800, 5700, 7600,
8000). -/
theorem steady_scroll_progress_witness :
    (800 : Int) ≤ 1900 ∧
    (steadyPage 10000 2000 true).scrollTop
      (afterRound (steadyPage 10000 2000 true) (.str "#feed") 0) 0 = min (0 + 1900) 8000 ∧
    (scrollToEnd (steadyPage 10000 2000 true) (.str "#feed") 0).result = .ok () ∧
    (steadyPage 10000 2000 true).scrollTop
      (scrollToEnd (steadyPage 10000 2000 true) (.str "#feed") 0).world 0 = 8000 ∧
    ((roundCount (scrollToEnd (steadyPage 10000 2000 true) (.str "#feed") 0).trace : Nat)
      : Int) = 5 :=
  have h := steady_scroll_progress (steadyPage 10000 2000 true) (.str "#feed") 0 10000 2000
    ⟨fun _ => ⟨1, rfl, rfl⟩, fun _ => rfl, fun _ => rfl, fun _ _ => rfl, fun _ _ => rfl,
      fun _ => rfl, fun _ _ => rfl, fun _ _ => rfl, fun _ _ => rfl, fun _ => rfl⟩
    8000 1900 (by decide)
    (by
      have h1 : (0.95 : ℚ) * ((2000 : Int) : ℚ) = ((1900 : Int) : ℚ) := by norm_num
      rw [h1, Int.floor_intCast]; decide)
    0 (by decide) 5
    (by
      have h1 : ⌈((8000 - (steadyPage 10000 2000 true).scrollTop 0 0 : Int) : ℚ)
          / ((1900 : Int) : ℚ)⌉ = 5 := by
        rw [Int.ceil_eq_iff]
        constructor <;> norm_num [steadyPage]
      rw [h1]; decide)
  ⟨h.1, (h.2.1 0 (by decide)).2.1, (h.2.2.1 (by decide)).2.2.2.1,
    (h.2.2.1 (by decide)).2.2.2.2.1, (h.2.2.1 (by decide)).2.2.2.2.2⟩

end PuppeteerSingle
